import Mathlib

/-!
Verification of the custom-resource lifecycle handlers of the
tollingvision/sar-cluster repository (src/lambda_function.py and
src/cloudfront_manager.py), as a shallow embedding in Lean 4.

The embedding models:
  * the JSON-like configuration values consumed by the Config Normalizer
    `clean_distribution_config` of cloudfront_manager.py, together with
    its helpers `_is_preserved_empty`, `_clean` and `_fix_quantities`;
  * the dispatcher `lambda_handler` of lambda_function.py, its response
    delivery functions `send_cloudformation_response` and
    `send_emergency_response`, and the corresponding dispatcher of
    cloudfront_manager.py with `send_response`;
  * the bounded retry loops `delete_response_policy_with_retry`,
    `delete_function_with_retry` and `delete_key_group_with_retry`;
  * the resource handlers `VpcLinkResource.update`/`delete` and the
    write behaviour of `WAFResource.update`;
  * `validate_resource_properties` and the AutoScaling create validation.
-/

/-- JSON-like values, modelling the Python dicts/lists/strings/numbers/
booleans/None that flow through `clean_distribution_config`.  Python dicts
preserve insertion order, so objects are association lists. -/
inductive JVal where
  | null : JVal
  | str : String → JVal
  | num : Int → JVal
  | bool : Bool → JVal
  | obj : List (String × JVal) → JVal
  | arr : List JVal → JVal

/-- Python `v is None`. -/
def isNull : JVal → Bool
  | .null => true
  | _ => false

/-- Python `v == ""` (true exactly on the empty string; Python equality of
a non-string against `""` is false). -/
def isEmptyStr : JVal → Bool
  | .str s => s = ""
  | _ => false

/-- Look up the (first) value bound to a key in an object's field list,
modelling Python `d[k]` / `d.get(k)`. -/
def lookupKey : List (String × JVal) → String → Option JVal
  | [], _ => none
  | (k, v) :: rest, key => if k = key then some v else lookupKey rest key

/-- Python `k in d`. -/
def containsKey (fs : List (String × JVal)) (k : String) : Bool :=
  (lookupKey fs k).isSome

/-- Python `d.pop(k, None)`: remove the binding of a key. -/
def eraseKey : List (String × JVal) → String → List (String × JVal)
  | [], _ => []
  | (k, v) :: rest, key =>
    if k = key then eraseKey rest key else (k, v) :: eraseKey rest key

/-- Python `d[k] = v`: replace the value at an existing key in place,
or append the binding when the key is absent. -/
def setKey : List (String × JVal) → String → JVal → List (String × JVal)
  | [], key, nv => [(key, nv)]
  | (k, v) :: rest, key, nv =>
    if k = key then (key, nv) :: rest else (k, v) :: setKey rest key nv

/-- The `PRESERVE_EMPTY_PATHS` set of `clean_distribution_config`: paths at
which an empty-string value must be kept. -/
def preserveEmptyPaths : List (List String) :=
  [["Comment"],
   ["WebACLId"],
   ["DefaultRootObject"],
   ["Origins", "Items", "*", "OriginPath"],
   ["Origins", "Items", "*", "S3OriginConfig", "OriginAccessIdentity"],
   ["DefaultCacheBehavior", "FieldLevelEncryptionId"],
   ["CacheBehaviors", "Items", "*", "FieldLevelEncryptionId"]]

/-- Componentwise match of a preserve pattern against a concrete path:
equal length, and each pattern component is a wildcard or equal. -/
def patMatches : List String → List String → Bool
  | [], [] => true
  | p :: ps, c :: cs => (p = "*" || p = c) && patMatches ps cs
  | _, _ => false

/-- `_is_preserved_empty` of `clean_distribution_config`. -/
def isPreservedEmpty (path : List String) : Bool :=
  preserveEmptyPaths.any (fun pat => patMatches pat path)

mutual

/-- The recursive `_clean` helper of `clean_distribution_config`, as a pure
function.  On a dict it first drops the legacy `ForwardedValues` key when
`CachePolicyId` is also present, then removes `None` values and
non-preserved empty strings and recurses; on a list it recurses with the
stringified index appended to the path. -/
def cleanVal (path : List String) : JVal → JVal
  | .obj fs =>
      .obj (cleanFields path
        (containsKey fs "CachePolicyId" && containsKey fs "ForwardedValues") fs)
  | .arr xs => .arr (cleanArr path 0 xs)
  | v => v

/-- Field-list part of `_clean`; `dropFV` records whether the
`ForwardedValues` binding is being dropped from this object. -/
def cleanFields (path : List String) (dropFV : Bool) :
    List (String × JVal) → List (String × JVal)
  | [] => []
  | (k, v) :: rest =>
    if dropFV && k = "ForwardedValues" then cleanFields path dropFV rest
    else if isNull v then cleanFields path dropFV rest
    else if isEmptyStr v && !isPreservedEmpty (path ++ [k]) then
      cleanFields path dropFV rest
    else (k, cleanVal (path ++ [k]) v) :: cleanFields path dropFV rest

/-- List part of `_clean`: clean each element at path `path ++ [str(i)]`. -/
def cleanArr (path : List String) (i : Nat) : List JVal → List JVal
  | [] => []
  | v :: rest => cleanVal (path ++ [toString i]) v :: cleanArr path (i + 1) rest

end

/-- Python value equality of a stored `Quantity` against an integer length
(`old_qty != new_qty` in `_fix_quantities`); Python `bool` is an `int`
subtype, so `True == 1` and `False == 0`. -/
def qtyEq (v : JVal) (n : Nat) : Bool :=
  match v with
  | .num m => m = (n : Int)
  | .bool b => (if b then (1 : Int) else 0) = (n : Int)
  | _ => false

/-- Core of `_fix_quantities` on one counted-collection dict: when `Items`
is a list, overwrite `Quantity` with its length unless they already compare
equal, and drop an empty `Items` list. -/
def fixCollDict (d : List (String × JVal)) : List (String × JVal) :=
  match lookupKey d "Items" with
  | some (.arr items) =>
      let d1 :=
        if (match lookupKey d "Quantity" with
            | some q => qtyEq q items.length
            | none => false) then d
        else setKey d "Quantity" (.num (items.length : Int))
      if items.length = 0 then eraseKey d1 "Items" else d1
  | _ => d

/-- One `_fix_quantities` step for a length-one collection path `[k]`:
when the configuration object holds a dict at key `k`, fix it in place. -/
def fixTop (v : JVal) (k : String) : JVal :=
  match v with
  | .obj fs =>
      match lookupKey fs k with
      | some (.obj d) => .obj (setKey fs k (.obj (fixCollDict d)))
      | _ => v
  | _ => v

/-- One `_fix_quantities` step for a length-two collection path `[k1, k2]`:
navigate to the dict at `k1`, then fix the dict at `k2` inside it. -/
def fixNested (v : JVal) (k1 k2 : String) : JVal :=
  match v with
  | .obj fs =>
      match lookupKey fs k1 with
      | some (.obj p) =>
          match lookupKey p k2 with
          | some (.obj d) =>
              .obj (setKey fs k1 (.obj (setKey p k2 (.obj (fixCollDict d)))))
          | _ => v
      | _ => v
  | _ => v

/-- `_fix_quantities` of `clean_distribution_config`: fix each of the
`COLLECTION_PATHS`, in source order. -/
def fixQuantities (v : JVal) : JVal :=
  let v1 := fixTop v "Aliases"
  let v2 := fixTop v1 "Origins"
  let v3 := fixTop v2 "CacheBehaviors"
  let v4 := fixTop v3 "CustomErrorResponses"
  let v5 := fixTop v4 "OrderedCacheBehaviors"
  let v6 := fixNested v5 "DefaultCacheBehavior" "LambdaFunctionAssociations"
  fixNested v6 "DefaultCacheBehavior" "FunctionAssociations"

/-- `clean_distribution_config` of cloudfront_manager.py: deep-copy (the
embedding is already pure), run `_clean` from the empty path, then run
`_fix_quantities`. -/
def cleanDistributionConfig (config : JVal) : JVal :=
  fixQuantities (cleanVal [] config)

/-! ## Response delivery and the dispatcher of lambda_function.py -/

/-- The fields of the CloudFormation response body that the claims are
about: the envelope `Status` and the `Status`/`Error` entries of `Data`. -/
structure RespBody where
  status : String
  dataStatus : Option String
  dataError : Option String

/-- String-valued response data, as an association list (`Data`). -/
def RData : Type := List (String × String)

/-- Python `d.get(k)` on string data. -/
def lookupS : List (String × String) → String → Option String
  | [], _ => none
  | (k, v) :: rest, key => if k = key then some v else lookupS rest key

/-- Build the observable part of a response body from its status and data. -/
def mkBody (status : String) (data : RData) : RespBody :=
  ⟨status, lookupS data "Status", lookupS data "Error"⟩

/-- One invocation's PUT attempts, in order: the body sent and whether the
transport delivered it (`urllib.request.urlopen` succeeded). -/
def PutTrace : Type := List (RespBody × Bool)

/-- `send_emergency_response` of lambda_function.py: when the event has a
`ResponseURL`, perform exactly one PUT (its own failure is caught and only
logged); otherwise log and return without any PUT. -/
def sendEmergency (hasURL : Bool) (o : Bool) (status : String) (data : RData) :
    PutTrace :=
  if hasURL then [(mkBody status data, o)] else []

/-- `send_cloudformation_response` of lambda_function.py: with a
`ResponseURL` present, one primary PUT; if the transport fails, fall back to
`send_emergency_response` with a `FAILED` status and an error marker.
Without a `ResponseURL` the function raises before any PUT and the
exception handler's emergency fallback also finds no URL, so no PUT
happens.  `o1` is the transport outcome of the primary PUT and `o2` that of
the emergency PUT, when attempted. -/
def sendCfn (hasURL : Bool) (o1 o2 : Bool) (status : String) (data : RData) :
    PutTrace :=
  if hasURL then
    if o1 then [(mkBody status data, true)]
    else (mkBody status data, false) ::
      sendEmergency hasURL o2 "FAILED" [("Error", "Response send failed")]
  else []

/-- The inbound CloudFormation event, restricted to the fields the
dispatcher of lambda_function.py reads before processing.  `requestType`,
`resourceType` (from `ResourceProperties`) and `logicalResourceId` are
`none` when absent from the event. -/
structure LFEvent where
  hasResponseURL : Bool
  requestType : Option String
  resourceType : Option String
  logicalResourceId : Option String

/-- Python truthiness of `event.get(...)`: present and not the empty
string. -/
def truthyOpt : Option String → Bool
  | none => false
  | some s => s ≠ ""

/-- Outcome of the routed resource processing inside the
`with TimeoutHandler` block: normal completion with a physical id and
response data, a `TimeoutError`, or any other exception with its message. -/
inductive ProcOutcome where
  | ok : String → RData → ProcOutcome
  | timeout : ProcOutcome
  | err : String → ProcOutcome

/-- The `except Exception` branch of `lambda_handler` in
lambda_function.py: if the remaining time is below the emergency margin,
send an emergency `FAILED` response; else for a `Delete` request send a
`SUCCESS` response flagged `DeleteFailed`, and otherwise a `FAILED`
response carrying the error. -/
def lfHandleErr (ev : LFEvent) (msg : String) (nearTimeout : Bool)
    (o1 o2 : Bool) : PutTrace :=
  if nearTimeout then
    sendEmergency ev.hasResponseURL o1 "FAILED" [("Error", msg)]
  else if ev.requestType = some "Delete" then
    sendCfn ev.hasResponseURL o1 o2 "SUCCESS"
      [("Status", "DeleteFailed"), ("Error", msg)]
  else
    sendCfn ev.hasResponseURL o1 o2 "FAILED" [("Error", msg)]

/-- `lambda_handler` of lambda_function.py.  In source order: validate
`RequestType`, `ResourceType` and `LogicalResourceId` (a missing one raises
`ValueError`, landing in the generic exception branch); check the timeout
thresholds before processing (`earlyTimeout`) and send an emergency
`FAILED` response when exceeded; then process and send a `SUCCESS`
response, converting a `TimeoutError` on `Delete` into a `SUCCESS` response
flagged `TimeoutOnDelete` (emergency `FAILED` otherwise) and any other
exception via the generic branch. -/
def runLFHandler (ev : LFEvent) (earlyTimeout : Bool) (proc : ProcOutcome)
    (nearTimeout : Bool) (o1 o2 : Bool) : PutTrace :=
  if ¬ truthyOpt ev.requestType then
    lfHandleErr ev "Missing RequestType in event" nearTimeout o1 o2
  else if ¬ truthyOpt ev.resourceType then
    lfHandleErr ev "Missing ResourceType in ResourceProperties" nearTimeout o1 o2
  else if ¬ truthyOpt ev.logicalResourceId then
    lfHandleErr ev "Missing LogicalResourceId in event" nearTimeout o1 o2
  else if earlyTimeout then
    sendEmergency ev.hasResponseURL o1 "FAILED"
      [("Error", "Timeout approaching before processing")]
  else
    match proc with
    | .ok _ data => sendCfn ev.hasResponseURL o1 o2 "SUCCESS" data
    | .timeout =>
        if ev.requestType = some "Delete" then
          sendCfn ev.hasResponseURL o1 o2 "SUCCESS"
            [("Status", "TimeoutOnDelete"),
             ("Message", "Deletion timed out but continuing")]
        else
          sendEmergency ev.hasResponseURL o1 "FAILED"
            [("Error", "Timeout processing")]
    | .err m => lfHandleErr ev m nearTimeout o1 o2

/-- Number of PUTs the transport actually delivered in a trace. -/
def deliveredCount (t : PutTrace) : Nat :=
  t.countP (fun p => p.2)

/-- Envelope statuses of the delivered PUTs of a trace, in order. -/
def deliveredStatuses (t : PutTrace) : List String :=
  (t.filter (fun p => p.2)).map (fun p => p.1.status)

/-! ## The dispatcher of cloudfront_manager.py -/

/-- The inbound event as read by `lambda_handler` of cloudfront_manager.py:
its validation tests key *presence* (`'RequestType' not in event`), not
truthiness. -/
structure CFEvent where
  hasResponseURL : Bool
  requestType : Option String
  hasResourceProps : Bool
  resourceType : Option String

/-- `send_response` of cloudfront_manager.py: one primary PUT; on transport
failure, one minimal retry PUT with status `FAILED` (its own failure only
logged). -/
def cfSend (hasURL : Bool) (o1 o2 : Bool) (status : String) (data : RData) :
    PutTrace :=
  if hasURL then
    if o1 then [(mkBody status data, true)]
    else (mkBody status data, false) ::
      [(mkBody "FAILED" [("Error", "Response transmission failed")], o2)]
  else []

/-- The `except Exception` branch of cloudfront_manager's `lambda_handler`:
`Delete` requests get a `SUCCESS` response flagged `DeleteFailed`, others a
`FAILED` response. -/
def cfHandleErr (ev : CFEvent) (msg : String) (o1 o2 : Bool) : PutTrace :=
  if ev.requestType = some "Delete" then
    cfSend ev.hasResponseURL o1 o2 "SUCCESS"
      [("Status", "DeleteFailed"), ("Error", msg)]
  else
    cfSend ev.hasResponseURL o1 o2 "FAILED" [("Error", msg)]

/-- `lambda_handler` of cloudfront_manager.py: validate presence of
`RequestType`, `ResourceProperties` and `ResourceType`, reject request
types outside Create/Update/Delete, then run the routed operation
(`bodyOutcome`); on success send `SUCCESS` with its data, on
`TimeoutError` send `SUCCESS` flagged `TimeoutOnDelete` for `Delete` and
`FAILED` otherwise, and route any other exception through the generic
branch. -/
def runCFHandler (ev : CFEvent) (bodyOutcome : ProcOutcome) (o1 o2 : Bool) :
    PutTrace :=
  if ev.requestType.isNone then
    cfHandleErr ev "Missing RequestType in event" o1 o2
  else if ¬ ev.hasResourceProps then
    cfHandleErr ev "Missing ResourceProperties in event" o1 o2
  else if ev.resourceType.isNone then
    cfHandleErr ev "Missing ResourceType in ResourceProperties" o1 o2
  else if ¬ (ev.requestType = some "Create" ∨ ev.requestType = some "Update"
      ∨ ev.requestType = some "Delete") then
    cfHandleErr ev "Invalid request type" o1 o2
  else
    match bodyOutcome with
    | .ok _ data => cfSend ev.hasResponseURL o1 o2 "SUCCESS" data
    | .timeout =>
        if ev.requestType = some "Delete" then
          cfSend ev.hasResponseURL o1 o2 "SUCCESS"
            [("Status", "TimeoutOnDelete"),
             ("Message", "Deletion timed out but continuing")]
        else
          cfSend ev.hasResponseURL o1 o2 "FAILED"
            [("Error", "Lambda function timed out")]
    | .err m => cfHandleErr ev m o1 o2

/-! ## Bounded retry loops of cloudfront_manager.py -/

/-- Outcome of `get_response_headers_policy` on one attempt: found with an
ETag, a `NoSuchResponseHeadersPolicy`/`NoSuchResource` error, or another
client error. -/
inductive PolReadOut where
  | found : PolReadOut
  | missing : PolReadOut
  | errR : String → PolReadOut

/-- Outcome of `delete_response_headers_policy` on one attempt. -/
inductive PolDelOut where
  | ok : PolDelOut
  | missing : PolDelOut
  | inUse : PolDelOut
  | precond : PolDelOut
  | fatal : String → PolDelOut

/-- Observable trace of `delete_response_policy_with_retry`: the final
result, the number of `get_response_headers_policy` read attempts, and the
sleeps performed (in seconds, in order). -/
structure PolTrace where
  result : Except String Unit
  readsCount : Nat
  sleeps : List Nat

/-- The loop body of `delete_response_policy_with_retry`, indexed by the
remaining iterations (`remaining = max_retries - attempt`).  Each iteration
first re-reads the policy and its ETag; a missing policy returns
successfully; a successful or `NoSuchResource` delete returns;
`ResponseHeadersPolicyInUse` sleeps `2 ** attempt` seconds and retries;
`PreconditionFailed` (stale ETag) sleeps 1 second and retries; any other
error is re-raised into the outer handler, which re-raises on the last
attempt and otherwise sleeps `2 ** attempt` seconds and retries.  A read
error takes the same outer path.  When the loop exhausts all attempts it
raises. -/
def polDeleteAux (reads : Nat → PolReadOut) (dels : Nat → PolDelOut) :
    Nat → Nat → Nat → List Nat → PolTrace
  | 0, _, rc, sl =>
      ⟨.error "Failed to delete response headers policy after max retries",
       rc, sl⟩
  | r + 1, attempt, rc, sl =>
      match reads attempt with
      | .missing => ⟨.ok (), rc + 1, sl⟩
      | .errR m =>
          if r = 0 then ⟨.error m, rc + 1, sl⟩
          else polDeleteAux reads dels r (attempt + 1) (rc + 1)
            (sl ++ [2 ^ attempt])
      | .found =>
          match dels attempt with
          | .ok => ⟨.ok (), rc + 1, sl⟩
          | .missing => ⟨.ok (), rc + 1, sl⟩
          | .inUse =>
              polDeleteAux reads dels r (attempt + 1) (rc + 1)
                (sl ++ [2 ^ attempt])
          | .precond =>
              polDeleteAux reads dels r (attempt + 1) (rc + 1) (sl ++ [1])
          | .fatal m =>
              if r = 0 then ⟨.error m, rc + 1, sl⟩
              else polDeleteAux reads dels r (attempt + 1) (rc + 1)
                (sl ++ [2 ^ attempt])

/-- `delete_response_policy_with_retry` with its default
`max_retries = 10`, driven by per-attempt read and delete outcome
scripts. -/
def runPolicyDelete (reads : Nat → PolReadOut) (dels : Nat → PolDelOut) :
    PolTrace :=
  polDeleteAux reads dels 10 0 0 []

/-- Outcome of one `delete_function` attempt in
`delete_function_with_retry`: success, `NoSuchFunction`, a blocking error
(`FunctionInUse`/`InvalidIfMatchVersion`/`PreconditionFailed`), or an
unexpected error (which the source logs and then stops on). -/
inductive FnDelOut where
  | ok : FnDelOut
  | missing : FnDelOut
  | blocked : FnDelOut
  | unexpected : FnDelOut

/-- Sleep trace of `delete_function_with_retry` (max 10 attempts) when
`describe_function` succeeds on every attempt and each delete attempt
follows the script: a blocked attempt sleeps `min((attempt+1)*60, 300)`
seconds and retries; every other outcome returns. -/
def fnDeleteSleeps (dels : Nat → FnDelOut) : Nat → Nat → List Nat → List Nat
  | 0, _, sl => sl
  | r + 1, attempt, sl =>
      match dels attempt with
      | .blocked =>
          fnDeleteSleeps dels r (attempt + 1) (sl ++ [min ((attempt + 1) * 60) 300])
      | _ => sl

/-- The sleeps of a full `delete_function_with_retry` run
(`max_retries = 10`). -/
def runFnDeleteSleeps (dels : Nat → FnDelOut) : List Nat :=
  fnDeleteSleeps dels 10 0 []

/-- Outcome of one `delete_key_group` attempt in
`delete_key_group_with_retry`. -/
inductive KgDelOut where
  | ok : KgDelOut
  | missing : KgDelOut
  | inUse : KgDelOut
  | unexpected : KgDelOut

/-- Sleep trace of `delete_key_group_with_retry` (max 5 attempts): an
in-use attempt sleeps `(attempt+1)*30` seconds and retries while
`attempt < max_retries - 1`, and gives up (returning) on the last
attempt. -/
def kgDeleteSleeps (dels : Nat → KgDelOut) : Nat → Nat → List Nat → List Nat
  | 0, _, sl => sl
  | r + 1, attempt, sl =>
      match dels attempt with
      | .inUse =>
          if r = 0 then sl
          else kgDeleteSleeps dels r (attempt + 1) (sl ++ [(attempt + 1) * 30])
      | _ => sl

/-- The sleeps of a full `delete_key_group_with_retry` run
(`max_retries = 5`). -/
def runKgDeleteSleeps (dels : Nat → KgDelOut) : List Nat :=
  kgDeleteSleeps dels 5 0 []

/-- `delete_resource` of cloudfront_manager.py for a `ResponsePolicy`
resource with a physical id present: it runs
`delete_response_policy_with_retry`, catches and only logs any error from
it, and always returns data with `Status` set to `Deleted`. -/
def cfDeleteResponsePolicy (pid : String)
    (reads : Nat → PolReadOut) (dels : Nat → PolDelOut) : RData :=
  let _trace := runPolicyDelete reads dels
  [("Status", "Deleted"), ("PhysicalResourceId", pid)]

/-! ## VpcLinkResource of lambda_function.py -/

/-- The remote state of a VPC link, as visible through `get_vpc_link`. -/
structure VpcLinkState where
  present : Bool
  name : String
  status : String

/-- Result of a VpcLinkResource operation: the returned data, the number
of remote *write* calls performed (`update_vpc_link` here; `get_vpc_link`
polls are reads), and whether the operation completed successfully. -/
structure VpcOpResult where
  success : Bool
  writes : Nat
  data : RData
  newState : VpcLinkState

/-- `VpcLinkResource.update` for an existing, available VPC link (the
not-found and replacement branches fall back to `create`, which is outside
this model): take the requested name (defaulting to the current one), call
`update_vpc_link` only when the name differs, then poll
`_wait_for_vpc_link_available`, which returns immediately on an
`AVAILABLE` status. -/
def vpcLinkUpdate (st : VpcLinkState) (propsName : Option String) :
    VpcOpResult :=
  let name := propsName.getD st.name
  let writes := if name = st.name then 0 else 1
  let st1 : VpcLinkState := ⟨st.present, name, st.status⟩
  if st.present then
    if st1.status = "AVAILABLE" then
      ⟨true, writes, [("VpcLinkId", "id"), ("Status", st1.status), ("Name", name)], st1⟩
    else
      ⟨false, writes, [], st1⟩
  else
    ⟨false, 0, [], st⟩

/-- Outcome of the remote `delete_vpc_link` call. -/
inductive VpcDelOut where
  | ok : VpcDelOut
  | notFound : VpcDelOut
  | clientErr : String → VpcDelOut

/-- `VpcLinkResource.delete`: a missing link or a `NotFoundException` maps
to success with empty data; any other client error is caught and mapped to
success-shaped data flagged `DeleteFailed` carrying the error message. -/
def vpcLinkDelete (st : VpcLinkState) (pid : String) (delOut : VpcDelOut) :
    String × RData :=
  if ¬ st.present then (pid, [])
  else
    match delOut with
    | .ok => (pid, [])
    | .notFound => (pid, [])
    | .clientErr m => (pid, [("Status", "DeleteFailed"), ("Error", m)])

/-! ## WAFResource.update of lambda_function.py -/

/-- Write-call count of `WAFResource.update` against an existing WebACL:
when IP allowlisting is configured it updates or creates the IPSet (one
write), and it then calls `_update_webacl_rules`, which invokes
`update_web_acl` unconditionally (one write) — there is no comparison
against the current remote state. -/
def wafUpdateWrites (aclPresent : Bool) (allowedIpCidrs : List String) : Nat :=
  if aclPresent then
    (if allowedIpCidrs.isEmpty then 0 else 1) + 1
  else 0

/-! ## validate_resource_properties of lambda_function.py -/

/-- A resource property value, with Python truthiness. -/
inductive PVal where
  | str : String → PVal
  | int : Int → PVal
  | bool : Bool → PVal
  | list : List String → PVal

/-- Python truthiness of a property value. -/
def pTruthy : PVal → Bool
  | .str s => s ≠ ""
  | .int n => n ≠ 0
  | .bool b => b
  | .list xs => ¬ xs.isEmpty

/-- Property lookup (`field in properties` plus `properties[field]`). -/
def lookupP : List (String × PVal) → String → Option PVal
  | [], _ => none
  | (k, v) :: rest, key => if k = key then some v else lookupP rest key

/-- The `missing_fields` list accumulated by
`validate_resource_properties`: a required field is missing when it is
absent or its value is falsy. -/
def missingFields (props : List (String × PVal)) (required : List String) :
    List String :=
  required.filter (fun f =>
    match lookupP props f with
    | none => true
    | some v => ¬ pTruthy v)

/-- `validate_resource_properties`: raise `ValueError` listing the missing
fields when any, else return normally. -/
def validateResourceProperties (props : List (String × PVal))
    (required : List String) : Except String Unit :=
  if missingFields props required = [] then .ok ()
  else .error ("Missing required properties: "
    ++ String.intercalate ", " (missingFields props required))

/-- The `required_fields` of `AutoScalingResource.create`. -/
def asgRequiredFields : List String :=
  ["AutoScalingGroupName", "LaunchTemplateName", "SubnetIds",
   "MinSize", "MaxSize", "DesiredCapacity"]

/-! ## Association-list lemmas -/

theorem lookupKey_setKey_same (fs : List (String × JVal)) (k : String) (v : JVal) :
    lookupKey (setKey fs k v) k = some v := by
  induction fs with
  | nil => simp [setKey, lookupKey]
  | cons hd tl ih =>
      obtain ⟨k0, v0⟩ := hd
      by_cases h : k0 = k
      · subst h; simp [setKey, lookupKey]
      · simp [setKey, lookupKey, h, ih]

theorem lookupKey_setKey_ne (fs : List (String × JVal)) (k k' : String) (v : JVal)
    (h : k' ≠ k) : lookupKey (setKey fs k v) k' = lookupKey fs k' := by
  have h2 : k ≠ k' := Ne.symm h
  induction fs with
  | nil => simp [setKey, lookupKey, h2]
  | cons hd tl ih =>
      obtain ⟨k0, v0⟩ := hd
      by_cases h0 : k0 = k
      · subst h0
        simp [setKey, lookupKey, h2]
      · by_cases h1 : k0 = k'
        · subst h1; simp [setKey, lookupKey, h0]
        · simp [setKey, lookupKey, h0, h1, ih]

theorem setKey_setKey (fs : List (String × JVal)) (k : String) (a b : JVal) :
    setKey (setKey fs k a) k b = setKey fs k b := by
  induction fs with
  | nil => simp [setKey]
  | cons hd tl ih =>
      obtain ⟨k0, v0⟩ := hd
      by_cases h : k0 = k
      · subst h; simp [setKey]
      · simp [setKey, h, ih]

theorem setKey_eq_self (fs : List (String × JVal)) (k : String) (v : JVal)
    (h : lookupKey fs k = some v) : setKey fs k v = fs := by
  induction fs with
  | nil => simp [lookupKey] at h
  | cons hd tl ih =>
      obtain ⟨k0, v0⟩ := hd
      by_cases h0 : k0 = k
      · subst h0
        simp [lookupKey] at h
        simp [setKey, h]
      · simp [lookupKey, h0] at h
        simp [setKey, h0, ih h]

theorem lookupKey_eraseKey_same (fs : List (String × JVal)) (k : String) :
    lookupKey (eraseKey fs k) k = none := by
  induction fs with
  | nil => simp [eraseKey, lookupKey]
  | cons hd tl ih =>
      obtain ⟨k0, v0⟩ := hd
      by_cases h : k0 = k
      · subst h; simp [eraseKey, ih]
      · simp [eraseKey, lookupKey, h, ih]

theorem lookupKey_eraseKey_ne (fs : List (String × JVal)) (k k' : String)
    (h : k' ≠ k) : lookupKey (eraseKey fs k) k' = lookupKey fs k' := by
  have h2 : k ≠ k' := Ne.symm h
  induction fs with
  | nil => simp [eraseKey]
  | cons hd tl ih =>
      obtain ⟨k0, v0⟩ := hd
      by_cases h0 : k0 = k
      · subst h0
        simp [eraseKey, lookupKey, h2, ih]
      · simp [eraseKey, lookupKey, h0, ih]

theorem mem_of_lookupKey (fs : List (String × JVal)) (k : String) (v : JVal)
    (h : lookupKey fs k = some v) : (k, v) ∈ fs := by
  induction fs with
  | nil => simp [lookupKey] at h
  | cons hd tl ih =>
      obtain ⟨k0, v0⟩ := hd
      by_cases h0 : k0 = k
      · subst h0
        simp [lookupKey] at h
        simp [h]
      · simp [lookupKey, h0] at h
        exact List.mem_cons_of_mem _ (ih h)

theorem mem_setKey (fs : List (String × JVal)) (k : String) (v : JVal)
    (k' : String) (w : JVal) (h : (k', w) ∈ setKey fs k v) :
    (k', w) ∈ fs ∨ (k' = k ∧ w = v) := by
  induction fs with
  | nil =>
      simp [setKey] at h
      exact Or.inr h
  | cons hd tl ih =>
      obtain ⟨k0, v0⟩ := hd
      by_cases h0 : k0 = k
      · subst h0
        simp [setKey] at h
        rcases h with ⟨h1, h2⟩ | h
        · exact Or.inr ⟨h1, h2⟩
        · exact Or.inl (List.mem_cons_of_mem _ h)
      · simp [setKey, h0] at h
        rcases h with ⟨h1, h2⟩ | h
        · exact Or.inl (by simp [h1, h2])
        · rcases ih h with h | h
          · exact Or.inl (List.mem_cons_of_mem _ h)
          · exact Or.inr h

theorem mem_eraseKey (fs : List (String × JVal)) (k : String)
    (k' : String) (w : JVal) (h : (k', w) ∈ eraseKey fs k) : (k', w) ∈ fs := by
  induction fs with
  | nil => simp [eraseKey] at h
  | cons hd tl ih =>
      obtain ⟨k0, v0⟩ := hd
      by_cases h0 : k0 = k
      · subst h0
        simp [eraseKey] at h
        exact List.mem_cons_of_mem _ (ih h)
      · simp [eraseKey, h0] at h
        rcases h with ⟨h1, h2⟩ | h
        · subst h1; subst h2; exact List.mem_cons_self _ _
        · exact List.mem_cons_of_mem _ (ih h)

/-! ## A member-based induction principle for JVal -/

theorem JVal.strongRecAux {P : JVal → Prop}
    (hnull : P .null) (hstr : ∀ s, P (.str s)) (hnum : ∀ n, P (.num n))
    (hbool : ∀ b, P (.bool b))
    (hobj : ∀ fs, (∀ k v, (k, v) ∈ fs → P v) → P (.obj fs))
    (harr : ∀ xs, (∀ v, v ∈ xs → P v) → P (.arr xs)) :
    ∀ (n : Nat) (v : JVal), sizeOf v ≤ n → P v := by
  intro n
  induction n with
  | zero =>
      intro v hv
      exfalso
      cases v <;> simp only [JVal.null.sizeOf_spec, JVal.str.sizeOf_spec,
        JVal.num.sizeOf_spec, JVal.bool.sizeOf_spec, JVal.obj.sizeOf_spec,
        JVal.arr.sizeOf_spec] at hv <;> omega
  | succ n ih =>
      intro v hv
      cases v with
      | null => exact hnull
      | str s => exact hstr s
      | num m => exact hnum m
      | bool b => exact hbool b
      | obj fs =>
          refine hobj fs (fun k v hm => ih v ?_)
          have h1 := List.sizeOf_lt_of_mem hm
          simp only [JVal.obj.sizeOf_spec] at hv
          simp only [Prod.mk.sizeOf_spec] at h1
          omega
      | arr xs =>
          refine harr xs (fun v hm => ih v ?_)
          have h1 := List.sizeOf_lt_of_mem hm
          simp only [JVal.arr.sizeOf_spec] at hv
          omega

theorem JVal.strongRec {P : JVal → Prop}
    (hnull : P .null) (hstr : ∀ s, P (.str s)) (hnum : ∀ n, P (.num n))
    (hbool : ∀ b, P (.bool b))
    (hobj : ∀ fs, (∀ k v, (k, v) ∈ fs → P v) → P (.obj fs))
    (harr : ∀ xs, (∀ v, v ∈ xs → P v) → P (.arr xs)) :
    ∀ v, P v :=
  fun v =>
    JVal.strongRecAux hnull hstr hnum hbool hobj harr (sizeOf v) v (Nat.le_refl _)

/-! ## Lemmas about the recursive cleaner -/

theorem isNull_cleanVal (p : List String) (v : JVal) :
    isNull (cleanVal p v) = isNull v := by
  cases v <;> simp [cleanVal, isNull]

theorem isEmptyStr_cleanVal (p : List String) (v : JVal) :
    isEmptyStr (cleanVal p v) = isEmptyStr v := by
  cases v <;> simp [cleanVal, isEmptyStr]

theorem cleanFields_cons (p : List String) (d : Bool) (k : String) (v : JVal)
    (rest : List (String × JVal)) :
    cleanFields p d ((k, v) :: rest) =
      if d && k = "ForwardedValues" then cleanFields p d rest
      else if isNull v then cleanFields p d rest
      else if isEmptyStr v && !isPreservedEmpty (p ++ [k]) then cleanFields p d rest
      else (k, cleanVal (p ++ [k]) v) :: cleanFields p d rest := rfl

theorem length_cleanFields_le (p : List String) (d : Bool)
    (fs : List (String × JVal)) : (cleanFields p d fs).length ≤ fs.length := by
  induction fs with
  | nil => simp [cleanFields]
  | cons hd tl ih =>
      obtain ⟨k, v⟩ := hd
      rw [cleanFields_cons]
      split
      · exact Nat.le_succ_of_le ih
      · split
        · exact Nat.le_succ_of_le ih
        · split
          · exact Nat.le_succ_of_le ih
          · simpa using ih

theorem lookupKey_cleanFields_isSome (p : List String) (d : Bool)
    (fs : List (String × JVal)) (k : String)
    (h : (lookupKey (cleanFields p d fs) k).isSome) :
    (lookupKey fs k).isSome := by
  induction fs with
  | nil => simpa [cleanFields] using h
  | cons hd tl ih =>
      obtain ⟨k0, v0⟩ := hd
      rw [cleanFields_cons] at h
      by_cases hk : k0 = k
      · subst hk; simp [lookupKey]
      · simp only [lookupKey, hk, if_false]
        split at h
        · exact ih h
        · split at h
          · exact ih h
          · split at h
            · exact ih h
            · simp only [lookupKey, hk, if_false] at h
              exact ih h

theorem lookupKey_cleanFields_dropFV (p : List String)
    (fs : List (String × JVal)) :
    lookupKey (cleanFields p true fs) "ForwardedValues" = none := by
  induction fs with
  | nil => simp [cleanFields, lookupKey]
  | cons hd tl ih =>
      obtain ⟨k0, v0⟩ := hd
      rw [cleanFields_cons]
      by_cases hk : k0 = "ForwardedValues"
      · simp [hk, ih]
      · simp only [hk, Bool.and_false, decide_eq_true_eq]
        split
        · simp_all
        · split
          · exact ih
          · split
            · exact ih
            · simp [lookupKey, hk, ih]

/-- Conditions under which `_clean` keeps a binding of an object. -/
def keepPair (p : List String) (d : Bool) (k : String) (v : JVal) : Prop :=
  (d = true → ¬ k = "ForwardedValues") ∧ isNull v = false ∧
  (isEmptyStr v = true → isPreservedEmpty (p ++ [k]) = true)

theorem cleanFields_eq_self_of (p : List String) (d : Bool)
    (fs : List (String × JVal))
    (h : ∀ k v, (k, v) ∈ fs → keepPair p d k v ∧ cleanVal (p ++ [k]) v = v) :
    cleanFields p d fs = fs := by
  induction fs with
  | nil => rfl
  | cons hd tl ih =>
      obtain ⟨k0, v0⟩ := hd
      obtain ⟨⟨hfv, hnull, hemp⟩, hclean⟩ := h k0 v0 (List.mem_cons_self _ _)
      have htl := ih (fun k v hm => h k v (List.mem_cons_of_mem _ hm))
      rw [cleanFields_cons]
      have g1 : (d && decide (k0 = "ForwardedValues")) = false := by
        cases d with
        | false => simp
        | true => simp [hfv rfl]
      have g3 : (isEmptyStr v0 && !isPreservedEmpty (p ++ [k0])) = false := by
        cases hse : isEmptyStr v0 with
        | false => simp
        | true => simp [hemp hse]
      simp [g1, hnull, g3, hclean, htl]

theorem cleanFields_self_mem (p : List String) (d : Bool)
    (fs : List (String × JVal)) (heq : cleanFields p d fs = fs) :
    ∀ k v, (k, v) ∈ fs → keepPair p d k v ∧ cleanVal (p ++ [k]) v = v := by
  induction fs with
  | nil => intro k v hm; simp at hm
  | cons hd tl ih =>
      obtain ⟨k0, v0⟩ := hd
      rw [cleanFields_cons] at heq
      have hlen := length_cleanFields_le p d tl
      by_cases g1 : (d && decide (k0 = "ForwardedValues")) = true
      · rw [if_pos g1] at heq
        exfalso
        have := congrArg List.length heq
        simp at this
        omega
      · rw [if_neg g1] at heq
        by_cases g2 : isNull v0 = true
        · rw [if_pos g2] at heq
          exfalso
          have := congrArg List.length heq
          simp at this
          omega
        · rw [if_neg g2] at heq
          by_cases g3 : (isEmptyStr v0 && !isPreservedEmpty (p ++ [k0])) = true
          · rw [if_pos g3] at heq
            exfalso
            have := congrArg List.length heq
            simp at this
            omega
          · rw [if_neg g3] at heq
            injection heq with h1 h2
            injection h1 with hk1 hv1
            intro k v hm
            rcases List.mem_cons.mp hm with hh | hh
            · rw [Prod.mk.injEq] at hh
              obtain ⟨rfl, rfl⟩ := hh
              refine ⟨⟨?_, ?_, ?_⟩, hv1⟩
              · intro hd
                subst hd
                simpa using g1
              · simpa using g2
              · intro hse
                cases hpres : isPreservedEmpty (p ++ [k]) with
                | true => rfl
                | false => exact absurd (by simp [hse, hpres]) g3
            · exact ih h2 k v hh

theorem mem_cleanFields (p : List String) (d : Bool)
    (fs : List (String × JVal)) (k : String) (w : JVal)
    (h : (k, w) ∈ cleanFields p d fs) :
    ∃ v, (k, v) ∈ fs ∧ w = cleanVal (p ++ [k]) v ∧ keepPair p d k v := by
  induction fs with
  | nil => simp [cleanFields] at h
  | cons hd tl ih =>
      obtain ⟨k0, v0⟩ := hd
      rw [cleanFields_cons] at h
      by_cases g1 : (d && decide (k0 = "ForwardedValues")) = true
      · rw [if_pos g1] at h
        obtain ⟨v, hm, hw, hkp⟩ := ih h
        exact ⟨v, List.mem_cons_of_mem _ hm, hw, hkp⟩
      · rw [if_neg g1] at h
        by_cases g2 : isNull v0 = true
        · rw [if_pos g2] at h
          obtain ⟨v, hm, hw, hkp⟩ := ih h
          exact ⟨v, List.mem_cons_of_mem _ hm, hw, hkp⟩
        · rw [if_neg g2] at h
          by_cases g3 : (isEmptyStr v0 && !isPreservedEmpty (p ++ [k0])) = true
          · rw [if_pos g3] at h
            obtain ⟨v, hm, hw, hkp⟩ := ih h
            exact ⟨v, List.mem_cons_of_mem _ hm, hw, hkp⟩
          · rw [if_neg g3] at h
            rcases List.mem_cons.mp h with hh | hh
            · rw [Prod.mk.injEq] at hh
              obtain ⟨rfl, rfl⟩ := hh
              refine ⟨v0, List.mem_cons_self _ _, rfl, ?_, ?_, ?_⟩
              · intro hd'
                subst hd'
                simpa using g1
              · simpa using g2
              · intro hse
                cases hpres : isPreservedEmpty (p ++ [k]) with
                | true => rfl
                | false => exact absurd (by simp [hse, hpres]) g3
            · obtain ⟨v, hm, hw, hkp⟩ := ih hh
              exact ⟨v, List.mem_cons_of_mem _ hm, hw, hkp⟩

theorem cleanArr_idem_of (p : List String) (xs : List JVal)
    (h : ∀ v ∈ xs, ∀ q, cleanVal q (cleanVal q v) = cleanVal q v) :
    ∀ i, cleanArr p i (cleanArr p i xs) = cleanArr p i xs := by
  induction xs with
  | nil => intro i; rfl
  | cons hd tl ih =>
      intro i
      have hh := h hd (List.mem_cons_self _ _) (p ++ [toString i])
      have ht := ih (fun v hm q => h v (List.mem_cons_of_mem _ hm) q) (i + 1)
      simp [cleanArr, hh, ht]

theorem cleanVal_idem (v : JVal) : ∀ p, cleanVal p (cleanVal p v) = cleanVal p v := by
  induction v using JVal.strongRec with
  | hnull => intro p; rfl
  | hstr s => intro p; rfl
  | hnum n => intro p; rfl
  | hbool b => intro p; rfl
  | harr xs ih =>
      intro p
      show JVal.arr (cleanArr p 0 (cleanArr p 0 xs)) = .arr (cleanArr p 0 xs)
      rw [cleanArr_idem_of p xs ih 0]
  | hobj fs ih =>
      intro p
      have h1 : cleanVal p (.obj fs) =
          .obj (cleanFields p
            (containsKey fs "CachePolicyId" && containsKey fs "ForwardedValues") fs) := rfl
      rw [h1]
      have h2 : ∀ gs, cleanVal p (.obj gs) =
          .obj (cleanFields p
            (containsKey gs "CachePolicyId" && containsKey gs "ForwardedValues") gs) :=
        fun gs => rfl
      rw [h2]
      have hd' : (containsKey (cleanFields p
            (containsKey fs "CachePolicyId" && containsKey fs "ForwardedValues") fs)
            "CachePolicyId" &&
          containsKey (cleanFields p
            (containsKey fs "CachePolicyId" && containsKey fs "ForwardedValues") fs)
            "ForwardedValues") = false := by
        cases hFV : containsKey (cleanFields p
            (containsKey fs "CachePolicyId" && containsKey fs "ForwardedValues") fs)
            "ForwardedValues" with
        | false => simp [hFV]
        | true =>
            cases hdfs : (containsKey fs "CachePolicyId" && containsKey fs "ForwardedValues") with
            | true =>
                rw [hdfs] at hFV
                unfold containsKey at hFV
                rw [lookupKey_cleanFields_dropFV] at hFV
                simp at hFV
            | false =>
                cases hCP : containsKey (cleanFields p
                    (containsKey fs "CachePolicyId" && containsKey fs "ForwardedValues") fs)
                    "CachePolicyId" with
                | false =>
                    rw [hdfs] at hCP
                    simp [hCP]
                | true =>
                    exfalso
                    have hCP0 : (lookupKey fs "CachePolicyId").isSome :=
                      lookupKey_cleanFields_isSome _ _ _ _ hCP
                    have hFV0 : (lookupKey fs "ForwardedValues").isSome :=
                      lookupKey_cleanFields_isSome _ _ _ _ hFV
                    have hcon : (containsKey fs "CachePolicyId"
                        && containsKey fs "ForwardedValues") = true := by
                      unfold containsKey
                      simp [hCP0, hFV0]
                    rw [hdfs] at hcon
                    exact Bool.noConfusion hcon
      rw [hd']
      congr 1
      apply cleanFields_eq_self_of
      intro k w hm
      obtain ⟨v, hmv, hw, hkp⟩ := mem_cleanFields _ _ _ _ _ hm
      subst hw
      refine ⟨⟨?_, ?_, ?_⟩, ih k v hmv (p ++ [k])⟩
      · intro hfalse
        exact absurd hfalse (by simp)
      · rw [isNull_cleanVal]
        exact hkp.2.1
      · rw [isEmptyStr_cleanVal]
        exact hkp.2.2

/-! ## Lemmas about the quantity fixer -/

/-- Whether an optional value is a list. -/
def isArrOpt : Option JVal → Bool
  | some (.arr _) => true
  | _ => false

theorem fixCollDict_of_not_items (d : List (String × JVal))
    (h : isArrOpt (lookupKey d "Items") = false) : fixCollDict d = d := by
  cases hit : lookupKey d "Items" with
  | none => unfold fixCollDict; rw [hit]
  | some w =>
      cases w with
      | arr items => rw [hit] at h; simp [isArrOpt] at h
      | null => unfold fixCollDict; rw [hit]
      | str s => unfold fixCollDict; rw [hit]
      | num n => unfold fixCollDict; rw [hit]
      | bool b => unfold fixCollDict; rw [hit]
      | obj o => unfold fixCollDict; rw [hit]

theorem fixCollDict_of_arr (d : List (String × JVal)) (items : List JVal)
    (hit : lookupKey d "Items" = some (.arr items)) :
    fixCollDict d =
      (if items.length = 0 then
        eraseKey
          (if (match lookupKey d "Quantity" with
              | some q => qtyEq q items.length
              | none => false) then d
           else setKey d "Quantity" (.num (items.length : Int))) "Items"
      else
        (if (match lookupKey d "Quantity" with
            | some q => qtyEq q items.length
            | none => false) then d
         else setKey d "Quantity" (.num (items.length : Int)))) := by
  unfold fixCollDict
  rw [hit]

theorem fixCollDict_idem (d : List (String × JVal)) :
    fixCollDict (fixCollDict d) = fixCollDict d := by
  cases hit : isArrOpt (lookupKey d "Items") with
  | false => rw [fixCollDict_of_not_items d hit, fixCollDict_of_not_items d hit]
  | true =>
      have hsome : ∃ items, lookupKey d "Items" = some (.arr items) := by
        cases hl : lookupKey d "Items" with
        | none => rw [hl] at hit; simp [isArrOpt] at hit
        | some w =>
            cases w with
            | arr items => exact ⟨items, rfl⟩
            | null => rw [hl] at hit; simp [isArrOpt] at hit
            | str s => rw [hl] at hit; simp [isArrOpt] at hit
            | num n => rw [hl] at hit; simp [isArrOpt] at hit
            | bool b => rw [hl] at hit; simp [isArrOpt] at hit
            | obj o => rw [hl] at hit; simp [isArrOpt] at hit
      obtain ⟨items, hl⟩ := hsome
      rw [fixCollDict_of_arr d items hl]
      by_cases hlen : items.length = 0
      · rw [if_pos hlen]
        apply fixCollDict_of_not_items
        rw [lookupKey_eraseKey_same]
        rfl
      · rw [if_neg hlen]
        by_cases hq : (match lookupKey d "Quantity" with
            | some q => qtyEq q items.length
            | none => false) = true
        · rw [if_pos hq]
          rw [fixCollDict_of_arr d items hl, if_neg hlen, if_pos hq]
        · rw [if_neg hq]
          have hl2 : lookupKey (setKey d "Quantity" (.num (items.length : Int)))
              "Items" = some (.arr items) := by
            rw [lookupKey_setKey_ne _ _ _ _ (by decide)]
            exact hl
          rw [fixCollDict_of_arr _ items hl2, if_neg hlen]
          rw [lookupKey_setKey_same]
          simp [qtyEq]

/-- The value stored at a top-level key of a configuration object. -/
def slot (v : JVal) (k : String) : Option JVal :=
  match v with
  | .obj fs => lookupKey fs k
  | _ => none

/-- The value stored at a two-level path of a configuration object. -/
def slot2 (v : JVal) (k1 k2 : String) : Option JVal :=
  match slot v k1 with
  | some (.obj p) => lookupKey p k2
  | _ => none

theorem slot2_congr (v w : JVal) (k1 k2 : String) (h : slot v k1 = slot w k1) :
    slot2 v k1 k2 = slot2 w k1 k2 := by
  unfold slot2
  rw [h]

theorem slot_fixTop_same (v : JVal) (k : String) :
    slot (fixTop v k) k =
      (match slot v k with
       | some (.obj d) => some (.obj (fixCollDict d))
       | o => o) := by
  cases v with
  | obj fs =>
      cases hl : lookupKey fs k with
      | none => simp [slot, fixTop, hl]
      | some w => cases w <;> simp [slot, fixTop, hl, lookupKey_setKey_same]
  | null => rfl
  | str s => rfl
  | num n => rfl
  | bool b => rfl
  | arr xs => rfl

theorem slot_fixTop_ne (v : JVal) (k k' : String) (h : k' ≠ k) :
    slot (fixTop v k) k' = slot v k' := by
  cases v with
  | obj fs =>
      cases hl : lookupKey fs k with
      | none => simp [slot, fixTop, hl]
      | some w =>
          cases w <;> simp [slot, fixTop, hl, lookupKey_setKey_ne _ _ _ _ h]
  | null => rfl
  | str s => rfl
  | num n => rfl
  | bool b => rfl
  | arr xs => rfl

theorem slot_fixNested_ne (v : JVal) (k1 k2 k' : String) (h : k' ≠ k1) :
    slot (fixNested v k1 k2) k' = slot v k' := by
  cases v with
  | obj fs =>
      cases hl : lookupKey fs k1 with
      | none => simp [slot, fixNested, hl]
      | some w =>
          cases w with
          | obj p =>
              cases hl2 : lookupKey p k2 with
              | none => simp [slot, fixNested, hl, hl2]
              | some w2 =>
                  cases w2 <;>
                    simp [slot, fixNested, hl, hl2, lookupKey_setKey_ne _ _ _ _ h]
          | null => simp [slot, fixNested, hl]
          | str s => simp [slot, fixNested, hl]
          | num n => simp [slot, fixNested, hl]
          | bool b => simp [slot, fixNested, hl]
          | arr xs => simp [slot, fixNested, hl]
  | null => rfl
  | str s => rfl
  | num n => rfl
  | bool b => rfl
  | arr xs => rfl

theorem slot2_fixNested_same (v : JVal) (k1 k2 : String) :
    slot2 (fixNested v k1 k2) k1 k2 =
      (match slot2 v k1 k2 with
       | some (.obj d) => some (.obj (fixCollDict d))
       | o => o) := by
  cases v with
  | obj fs =>
      cases hl : lookupKey fs k1 with
      | none => simp [slot2, slot, fixNested, hl]
      | some w =>
          cases w with
          | obj p =>
              cases hl2 : lookupKey p k2 with
              | none => simp [slot2, slot, fixNested, hl, hl2]
              | some w2 =>
                  cases w2 <;>
                    simp [slot2, slot, fixNested, hl, hl2, lookupKey_setKey_same]
          | null => simp [slot2, slot, fixNested, hl]
          | str s => simp [slot2, slot, fixNested, hl]
          | num n => simp [slot2, slot, fixNested, hl]
          | bool b => simp [slot2, slot, fixNested, hl]
          | arr xs => simp [slot2, slot, fixNested, hl]
  | null => rfl
  | str s => rfl
  | num n => rfl
  | bool b => rfl
  | arr xs => rfl

theorem slot2_fixNested_ne (v : JVal) (k1 k2 k2' : String) (h : k2 ≠ k2') :
    slot2 (fixNested v k1 k2') k1 k2 = slot2 v k1 k2 := by
  cases v with
  | obj fs =>
      cases hl : lookupKey fs k1 with
      | none => simp [slot2, slot, fixNested, hl]
      | some w =>
          cases w with
          | obj p =>
              cases hl2 : lookupKey p k2' with
              | none => simp [slot2, slot, fixNested, hl, hl2]
              | some w2 =>
                  cases w2 <;>
                    simp [slot2, slot, fixNested, hl, hl2, lookupKey_setKey_same,
                      lookupKey_setKey_ne _ _ _ _ h]
          | null => simp [slot2, slot, fixNested, hl]
          | str s => simp [slot2, slot, fixNested, hl]
          | num n => simp [slot2, slot, fixNested, hl]
          | bool b => simp [slot2, slot, fixNested, hl]
          | arr xs => simp [slot2, slot, fixNested, hl]
  | null => rfl
  | str s => rfl
  | num n => rfl
  | bool b => rfl
  | arr xs => rfl

theorem slot2_fixTop_ne (v : JVal) (k k1 k2 : String) (h : k1 ≠ k) :
    slot2 (fixTop v k) k1 k2 = slot2 v k1 k2 :=
  slot2_congr _ _ _ _ (slot_fixTop_ne v k k1 h)

theorem fixTop_eq_self_of (v : JVal) (k : String)
    (h : ∀ d, slot v k = some (.obj d) → fixCollDict d = d) :
    fixTop v k = v := by
  cases v with
  | obj fs =>
      cases hl : lookupKey fs k with
      | none => simp [fixTop, hl]
      | some w =>
          cases w with
          | obj d =>
              have hd : fixCollDict d = d := h d (by simp [slot, hl])
              have hset : setKey fs k (.obj (fixCollDict d)) = fs := by
                rw [hd]
                exact setKey_eq_self _ _ _ hl
              simp [fixTop, hl, hset]
          | null => simp [fixTop, hl]
          | str s => simp [fixTop, hl]
          | num n => simp [fixTop, hl]
          | bool b => simp [fixTop, hl]
          | arr xs => simp [fixTop, hl]
  | null => rfl
  | str s => rfl
  | num n => rfl
  | bool b => rfl
  | arr xs => rfl

theorem fixNested_eq_self_of (v : JVal) (k1 k2 : String)
    (h : ∀ d, slot2 v k1 k2 = some (.obj d) → fixCollDict d = d) :
    fixNested v k1 k2 = v := by
  cases v with
  | obj fs =>
      cases hl : lookupKey fs k1 with
      | none => simp [fixNested, hl]
      | some w =>
          cases w with
          | obj p =>
              cases hl2 : lookupKey p k2 with
              | none => simp [fixNested, hl, hl2]
              | some w2 =>
                  cases w2 with
                  | obj d =>
                      have hd : fixCollDict d = d := h d (by simp [slot2, slot, hl, hl2])
                      have hset1 : setKey p k2 (.obj (fixCollDict d)) = p := by
                        rw [hd]
                        exact setKey_eq_self _ _ _ hl2
                      have hset2 : setKey fs k1 (.obj (setKey p k2 (.obj (fixCollDict d)))) = fs := by
                        rw [hset1]
                        exact setKey_eq_self _ _ _ hl
                      simp [fixNested, hl, hl2, hset2]
                  | null => simp [fixNested, hl, hl2]
                  | str s => simp [fixNested, hl, hl2]
                  | num n => simp [fixNested, hl, hl2]
                  | bool b => simp [fixNested, hl, hl2]
                  | arr xs => simp [fixNested, hl, hl2]
          | null => simp [fixNested, hl]
          | str s => simp [fixNested, hl]
          | num n => simp [fixNested, hl]
          | bool b => simp [fixNested, hl]
          | arr xs => simp [fixNested, hl]
  | null => rfl
  | str s => rfl
  | num n => rfl
  | bool b => rfl
  | arr xs => rfl

theorem fixQuantities_eq (v : JVal) :
    fixQuantities v =
      fixNested
        (fixNested
          (fixTop
            (fixTop
              (fixTop
                (fixTop
                  (fixTop v "Aliases")
                  "Origins")
                "CacheBehaviors")
              "CustomErrorResponses")
            "OrderedCacheBehaviors")
          "DefaultCacheBehavior" "LambdaFunctionAssociations")
        "DefaultCacheBehavior" "FunctionAssociations" := rfl

theorem slot_fixQuantities_Aliases (v : JVal) :
    slot (fixQuantities v) "Aliases" =
      (match slot v "Aliases" with
       | some (.obj d) => some (.obj (fixCollDict d))
       | o => o) := by
  rw [fixQuantities_eq,
    slot_fixNested_ne _ _ _ _ (by decide),
    slot_fixNested_ne _ _ _ _ (by decide),
    slot_fixTop_ne _ _ _ (by decide),
    slot_fixTop_ne _ _ _ (by decide),
    slot_fixTop_ne _ _ _ (by decide),
    slot_fixTop_ne _ _ _ (by decide)]
  exact slot_fixTop_same v "Aliases"

theorem slot_fixQuantities_Origins (v : JVal) :
    slot (fixQuantities v) "Origins" =
      (match slot v "Origins" with
       | some (.obj d) => some (.obj (fixCollDict d))
       | o => o) := by
  rw [fixQuantities_eq,
    slot_fixNested_ne _ _ _ _ (by decide),
    slot_fixNested_ne _ _ _ _ (by decide),
    slot_fixTop_ne _ _ _ (by decide),
    slot_fixTop_ne _ _ _ (by decide),
    slot_fixTop_ne _ _ _ (by decide),
    slot_fixTop_same _ "Origins",
    slot_fixTop_ne _ _ _ (by decide)]

theorem slot_fixQuantities_CacheBehaviors (v : JVal) :
    slot (fixQuantities v) "CacheBehaviors" =
      (match slot v "CacheBehaviors" with
       | some (.obj d) => some (.obj (fixCollDict d))
       | o => o) := by
  rw [fixQuantities_eq,
    slot_fixNested_ne _ _ _ _ (by decide),
    slot_fixNested_ne _ _ _ _ (by decide),
    slot_fixTop_ne _ _ _ (by decide),
    slot_fixTop_ne _ _ _ (by decide),
    slot_fixTop_same _ "CacheBehaviors",
    slot_fixTop_ne _ _ _ (by decide),
    slot_fixTop_ne _ _ _ (by decide)]

theorem slot_fixQuantities_CustomErrorResponses (v : JVal) :
    slot (fixQuantities v) "CustomErrorResponses" =
      (match slot v "CustomErrorResponses" with
       | some (.obj d) => some (.obj (fixCollDict d))
       | o => o) := by
  rw [fixQuantities_eq,
    slot_fixNested_ne _ _ _ _ (by decide),
    slot_fixNested_ne _ _ _ _ (by decide),
    slot_fixTop_ne _ _ _ (by decide),
    slot_fixTop_same _ "CustomErrorResponses",
    slot_fixTop_ne _ _ _ (by decide),
    slot_fixTop_ne _ _ _ (by decide),
    slot_fixTop_ne _ _ _ (by decide)]

theorem slot_fixQuantities_OrderedCacheBehaviors (v : JVal) :
    slot (fixQuantities v) "OrderedCacheBehaviors" =
      (match slot v "OrderedCacheBehaviors" with
       | some (.obj d) => some (.obj (fixCollDict d))
       | o => o) := by
  rw [fixQuantities_eq,
    slot_fixNested_ne _ _ _ _ (by decide),
    slot_fixNested_ne _ _ _ _ (by decide),
    slot_fixTop_same _ "OrderedCacheBehaviors",
    slot_fixTop_ne _ _ _ (by decide),
    slot_fixTop_ne _ _ _ (by decide),
    slot_fixTop_ne _ _ _ (by decide),
    slot_fixTop_ne _ _ _ (by decide)]

theorem slot2_fixQuantities_LFA (v : JVal) :
    slot2 (fixQuantities v) "DefaultCacheBehavior" "LambdaFunctionAssociations" =
      (match slot2 v "DefaultCacheBehavior" "LambdaFunctionAssociations" with
       | some (.obj d) => some (.obj (fixCollDict d))
       | o => o) := by
  rw [fixQuantities_eq,
    slot2_fixNested_ne _ _ _ _ (by decide),
    slot2_fixNested_same _ "DefaultCacheBehavior" "LambdaFunctionAssociations",
    slot2_fixTop_ne _ _ _ _ (by decide),
    slot2_fixTop_ne _ _ _ _ (by decide),
    slot2_fixTop_ne _ _ _ _ (by decide),
    slot2_fixTop_ne _ _ _ _ (by decide),
    slot2_fixTop_ne _ _ _ _ (by decide)]

theorem slot2_fixQuantities_FA (v : JVal) :
    slot2 (fixQuantities v) "DefaultCacheBehavior" "FunctionAssociations" =
      (match slot2 v "DefaultCacheBehavior" "FunctionAssociations" with
       | some (.obj d) => some (.obj (fixCollDict d))
       | o => o) := by
  rw [fixQuantities_eq,
    slot2_fixNested_same _ "DefaultCacheBehavior" "FunctionAssociations",
    slot2_fixNested_ne _ _ _ _ (by decide),
    slot2_fixTop_ne _ _ _ _ (by decide),
    slot2_fixTop_ne _ _ _ _ (by decide),
    slot2_fixTop_ne _ _ _ _ (by decide),
    slot2_fixTop_ne _ _ _ _ (by decide),
    slot2_fixTop_ne _ _ _ _ (by decide)]

theorem fixed_of_match_image (o : Option JVal) (d : List (String × JVal))
    (h : (match o with
          | some (.obj d0) => some (.obj (fixCollDict d0))
          | o0 => o0) = some (.obj d)) :
    fixCollDict d = d := by
  cases o with
  | none => simp at h
  | some w =>
      cases w with
      | obj d0 =>
          simp at h
          subst h
          exact fixCollDict_idem d0
      | null => simp at h
      | str s => simp at h
      | num n => simp at h
      | bool b => simp at h
      | arr xs => simp at h

theorem fixQuantities_idem (v : JVal) :
    fixQuantities (fixQuantities v) = fixQuantities v := by
  have h1 : fixTop (fixQuantities v) "Aliases" = fixQuantities v :=
    fixTop_eq_self_of _ _ (fun d hd =>
      fixed_of_match_image _ _ ((slot_fixQuantities_Aliases v) ▸ hd))
  have h2 : fixTop (fixQuantities v) "Origins" = fixQuantities v :=
    fixTop_eq_self_of _ _ (fun d hd =>
      fixed_of_match_image _ _ ((slot_fixQuantities_Origins v) ▸ hd))
  have h3 : fixTop (fixQuantities v) "CacheBehaviors" = fixQuantities v :=
    fixTop_eq_self_of _ _ (fun d hd =>
      fixed_of_match_image _ _ ((slot_fixQuantities_CacheBehaviors v) ▸ hd))
  have h4 : fixTop (fixQuantities v) "CustomErrorResponses" = fixQuantities v :=
    fixTop_eq_self_of _ _ (fun d hd =>
      fixed_of_match_image _ _ ((slot_fixQuantities_CustomErrorResponses v) ▸ hd))
  have h5 : fixTop (fixQuantities v) "OrderedCacheBehaviors" = fixQuantities v :=
    fixTop_eq_self_of _ _ (fun d hd =>
      fixed_of_match_image _ _ ((slot_fixQuantities_OrderedCacheBehaviors v) ▸ hd))
  have h6 : fixNested (fixQuantities v) "DefaultCacheBehavior"
      "LambdaFunctionAssociations" = fixQuantities v :=
    fixNested_eq_self_of _ _ _ (fun d hd =>
      fixed_of_match_image _ _ ((slot2_fixQuantities_LFA v) ▸ hd))
  have h7 : fixNested (fixQuantities v) "DefaultCacheBehavior"
      "FunctionAssociations" = fixQuantities v :=
    fixNested_eq_self_of _ _ _ (fun d hd =>
      fixed_of_match_image _ _ ((slot2_fixQuantities_FA v) ▸ hd))
  calc fixQuantities (fixQuantities v)
      = fixNested
          (fixNested
            (fixTop (fixTop (fixTop (fixTop (fixTop (fixQuantities v)
              "Aliases") "Origins") "CacheBehaviors") "CustomErrorResponses")
              "OrderedCacheBehaviors")
            "DefaultCacheBehavior" "LambdaFunctionAssociations")
          "DefaultCacheBehavior" "FunctionAssociations" := fixQuantities_eq _
    _ = fixQuantities v := by rw [h1, h2, h3, h4, h5, h6, h7]

/-! ## The cleaner fixes the output of the quantity fixer -/

theorem cleanVal_obj_self (p : List String) (fs : List (String × JVal))
    (h : cleanVal p (.obj fs) = .obj fs) :
    (containsKey fs "CachePolicyId" && containsKey fs "ForwardedValues") = false
      ∧ cleanFields p false fs = fs := by
  have h' : JVal.obj (cleanFields p
      (containsKey fs "CachePolicyId" && containsKey fs "ForwardedValues") fs) =
      .obj fs := h
  injection h' with hinj
  cases hd : (containsKey fs "CachePolicyId" && containsKey fs "ForwardedValues") with
  | false => rw [hd] at hinj; exact ⟨rfl, hinj⟩
  | true =>
      exfalso
      rw [hd] at hinj
      have hnone := lookupKey_cleanFields_dropFV p fs
      rw [hinj] at hnone
      have hFV : containsKey fs "ForwardedValues" = true := by
        cases hc : containsKey fs "ForwardedValues" with
        | true => rfl
        | false => rw [hc, Bool.and_false] at hd; exact Bool.noConfusion hd
      unfold containsKey at hFV
      rw [hnone] at hFV
      simp at hFV

theorem cleanFields_setKey_self (p : List String) (fs : List (String × JVal))
    (hfix : cleanFields p false fs = fs) (k : String) (v : JVal)
    (hnn : isNull v = false)
    (hns : isEmptyStr v = true → isPreservedEmpty (p ++ [k]) = true)
    (hcv : cleanVal (p ++ [k]) v = v) :
    cleanFields p false (setKey fs k v) = setKey fs k v := by
  apply cleanFields_eq_self_of
  intro k' w hm
  rcases mem_setKey _ _ _ _ _ hm with hm' | ⟨rfl, rfl⟩
  · exact cleanFields_self_mem p false fs hfix k' w hm'
  · exact ⟨⟨fun hf => absurd hf (by simp), hnn, hns⟩, hcv⟩

theorem cleanFields_eraseKey_self (p : List String) (fs : List (String × JVal))
    (hfix : cleanFields p false fs = fs) (k : String) :
    cleanFields p false (eraseKey fs k) = eraseKey fs k := by
  apply cleanFields_eq_self_of
  intro k' w hm
  exact cleanFields_self_mem p false fs hfix k' w (mem_eraseKey _ _ _ _ hm)

theorem containsKey_eraseKey_imp (fs : List (String × JVal)) (k x : String)
    (h : containsKey (eraseKey fs k) x = true) : containsKey fs x = true := by
  by_cases hx : x = k
  · subst hx
    unfold containsKey at h
    rw [lookupKey_eraseKey_same] at h
    simp at h
  · unfold containsKey at h ⊢
    rw [lookupKey_eraseKey_ne _ _ _ hx] at h
    exact h

theorem cleanVal_obj_setKey_self (p : List String) (fs : List (String × JVal))
    (h : cleanVal p (.obj fs) = .obj fs) (k : String) (v : JVal)
    (hkCP : ¬ k = "CachePolicyId") (hkFV : ¬ k = "ForwardedValues")
    (hnn : isNull v = false)
    (hns : isEmptyStr v = true → isPreservedEmpty (p ++ [k]) = true)
    (hcv : cleanVal (p ++ [k]) v = v) :
    cleanVal p (.obj (setKey fs k v)) = .obj (setKey fs k v) := by
  obtain ⟨hd, hfix⟩ := cleanVal_obj_self p fs h
  have hd' : (containsKey (setKey fs k v) "CachePolicyId"
      && containsKey (setKey fs k v) "ForwardedValues") = false := by
    unfold containsKey
    rw [lookupKey_setKey_ne _ _ _ _ (fun hh => hkCP hh.symm),
        lookupKey_setKey_ne _ _ _ _ (fun hh => hkFV hh.symm)]
    exact hd
  have heq : cleanVal p (.obj (setKey fs k v)) =
      .obj (cleanFields p (containsKey (setKey fs k v) "CachePolicyId"
        && containsKey (setKey fs k v) "ForwardedValues") (setKey fs k v)) := rfl
  rw [heq, hd']
  rw [cleanFields_setKey_self p fs hfix k v hnn hns hcv]

theorem cleanVal_obj_eraseKey_self (p : List String) (fs : List (String × JVal))
    (h : cleanVal p (.obj fs) = .obj fs) (k : String) :
    cleanVal p (.obj (eraseKey fs k)) = .obj (eraseKey fs k) := by
  obtain ⟨hd, hfix⟩ := cleanVal_obj_self p fs h
  have hd' : (containsKey (eraseKey fs k) "CachePolicyId"
      && containsKey (eraseKey fs k) "ForwardedValues") = false := by
    cases hc : (containsKey (eraseKey fs k) "CachePolicyId"
        && containsKey (eraseKey fs k) "ForwardedValues") with
    | false => rfl
    | true =>
        exfalso
        rw [Bool.and_eq_true] at hc
        have h1 := containsKey_eraseKey_imp fs k _ hc.1
        have h2 := containsKey_eraseKey_imp fs k _ hc.2
        rw [h1, h2] at hd
        exact Bool.noConfusion hd
  have heq : cleanVal p (.obj (eraseKey fs k)) =
      .obj (cleanFields p (containsKey (eraseKey fs k) "CachePolicyId"
        && containsKey (eraseKey fs k) "ForwardedValues") (eraseKey fs k)) := rfl
  rw [heq, hd']
  rw [cleanFields_eraseKey_self p fs hfix k]

theorem cleanVal_obj_fixColl (p : List String) (dd : List (String × JVal))
    (h : cleanVal p (.obj dd) = .obj dd) :
    cleanVal p (.obj (fixCollDict dd)) = .obj (fixCollDict dd) := by
  cases hit : isArrOpt (lookupKey dd "Items") with
  | false => rw [fixCollDict_of_not_items dd hit]; exact h
  | true =>
      have hsome : ∃ items, lookupKey dd "Items" = some (.arr items) := by
        cases hl : lookupKey dd "Items" with
        | none => rw [hl] at hit; simp [isArrOpt] at hit
        | some w =>
            cases w with
            | arr items => exact ⟨items, rfl⟩
            | null => rw [hl] at hit; simp [isArrOpt] at hit
            | str s => rw [hl] at hit; simp [isArrOpt] at hit
            | num n => rw [hl] at hit; simp [isArrOpt] at hit
            | bool b => rw [hl] at hit; simp [isArrOpt] at hit
            | obj o => rw [hl] at hit; simp [isArrOpt] at hit
      obtain ⟨items, hl⟩ := hsome
      rw [fixCollDict_of_arr dd items hl]
      have hset : cleanVal p (.obj (setKey dd "Quantity"
          (.num (items.length : Int)))) =
          .obj (setKey dd "Quantity" (.num (items.length : Int))) :=
        cleanVal_obj_setKey_self p dd h "Quantity" _ (by decide) (by decide)
          rfl (fun hh => by simp [isEmptyStr] at hh) rfl
      by_cases hq : (match lookupKey dd "Quantity" with
          | some q => qtyEq q items.length
          | none => false) = true
      · rw [if_pos hq]
        by_cases hlen : items.length = 0
        · rw [if_pos hlen]
          exact cleanVal_obj_eraseKey_self p dd h "Items"
        · rw [if_neg hlen]
          exact h
      · rw [if_neg hq]
        by_cases hlen : items.length = 0
        · rw [if_pos hlen]
          exact cleanVal_obj_eraseKey_self p _ hset "Items"
        · rw [if_neg hlen]
          exact hset

theorem cleanVal_fixTop (w : JVal) (k : String)
    (h : cleanVal [] w = w)
    (hkCP : ¬ k = "CachePolicyId") (hkFV : ¬ k = "ForwardedValues") :
    cleanVal [] (fixTop w k) = fixTop w k := by
  cases w with
  | obj fs =>
      cases hl : lookupKey fs k with
      | none => simp only [fixTop, hl]; exact h
      | some w0 =>
          cases w0 with
          | obj dd =>
              have hstep : fixTop (.obj fs) k =
                  .obj (setKey fs k (.obj (fixCollDict dd))) := by
                simp [fixTop, hl]
              rw [hstep]
              obtain ⟨hd, hfix⟩ := cleanVal_obj_self [] fs h
              have hmem := mem_of_lookupKey fs k _ hl
              have hdd : cleanVal ([] ++ [k]) (.obj dd) = .obj dd :=
                (cleanFields_self_mem [] false fs hfix k _ hmem).2
              have hfx : cleanVal ([] ++ [k]) (.obj (fixCollDict dd)) =
                  .obj (fixCollDict dd) :=
                cleanVal_obj_fixColl ([] ++ [k]) dd hdd
              exact cleanVal_obj_setKey_self [] fs h k _ hkCP hkFV rfl
                (fun hh => by simp [isEmptyStr] at hh) hfx
          | null => simp only [fixTop, hl]; exact h
          | str s => simp only [fixTop, hl]; exact h
          | num n => simp only [fixTop, hl]; exact h
          | bool b => simp only [fixTop, hl]; exact h
          | arr xs => simp only [fixTop, hl]; exact h
  | null => exact h
  | str s => exact h
  | num n => exact h
  | bool b => exact h
  | arr xs => exact h

theorem cleanVal_fixNested (w : JVal) (k1 k2 : String)
    (h : cleanVal [] w = w)
    (h1CP : ¬ k1 = "CachePolicyId") (h1FV : ¬ k1 = "ForwardedValues")
    (h2CP : ¬ k2 = "CachePolicyId") (h2FV : ¬ k2 = "ForwardedValues") :
    cleanVal [] (fixNested w k1 k2) = fixNested w k1 k2 := by
  cases w with
  | obj fs =>
      cases hl : lookupKey fs k1 with
      | none => simp only [fixNested, hl]; exact h
      | some w0 =>
          cases w0 with
          | obj pp =>
              cases hl2 : lookupKey pp k2 with
              | none => simp only [fixNested, hl, hl2]; exact h
              | some w1 =>
                  cases w1 with
                  | obj dd =>
                      have hstep : fixNested (.obj fs) k1 k2 =
                          .obj (setKey fs k1 (.obj (setKey pp k2
                            (.obj (fixCollDict dd))))) := by
                        simp [fixNested, hl, hl2]
                      rw [hstep]
                      obtain ⟨hd, hfix⟩ := cleanVal_obj_self [] fs h
                      have hmem1 := mem_of_lookupKey fs k1 _ hl
                      have hpp : cleanVal ([] ++ [k1]) (.obj pp) = .obj pp :=
                        (cleanFields_self_mem [] false fs hfix k1 _ hmem1).2
                      obtain ⟨hdp, hfixp⟩ := cleanVal_obj_self ([] ++ [k1]) pp hpp
                      have hmem2 := mem_of_lookupKey pp k2 _ hl2
                      have hdd : cleanVal (([] ++ [k1]) ++ [k2]) (.obj dd) = .obj dd :=
                        (cleanFields_self_mem ([] ++ [k1]) false pp hfixp k2 _ hmem2).2
                      have hfx : cleanVal (([] ++ [k1]) ++ [k2])
                          (.obj (fixCollDict dd)) = .obj (fixCollDict dd) :=
                        cleanVal_obj_fixColl _ dd hdd
                      have hinner : cleanVal ([] ++ [k1])
                          (.obj (setKey pp k2 (.obj (fixCollDict dd)))) =
                          .obj (setKey pp k2 (.obj (fixCollDict dd))) :=
                        cleanVal_obj_setKey_self ([] ++ [k1]) pp hpp k2 _ h2CP h2FV
                          rfl (fun hh => by simp [isEmptyStr] at hh) hfx
                      exact cleanVal_obj_setKey_self [] fs h k1 _ h1CP h1FV rfl
                        (fun hh => by simp [isEmptyStr] at hh) hinner
                  | null => simp only [fixNested, hl, hl2]; exact h
                  | str s => simp only [fixNested, hl, hl2]; exact h
                  | num n => simp only [fixNested, hl, hl2]; exact h
                  | bool b => simp only [fixNested, hl, hl2]; exact h
                  | arr xs => simp only [fixNested, hl, hl2]; exact h
          | null => simp only [fixNested, hl]; exact h
          | str s => simp only [fixNested, hl]; exact h
          | num n => simp only [fixNested, hl]; exact h
          | bool b => simp only [fixNested, hl]; exact h
          | arr xs => simp only [fixNested, hl]; exact h
  | null => exact h
  | str s => exact h
  | num n => exact h
  | bool b => exact h
  | arr xs => exact h

theorem cleanVal_fixQuantities (w : JVal) (h : cleanVal [] w = w) :
    cleanVal [] (fixQuantities w) = fixQuantities w := by
  rw [fixQuantities_eq]
  apply cleanVal_fixNested _ _ _ ?_ (by decide) (by decide) (by decide) (by decide)
  apply cleanVal_fixNested _ _ _ ?_ (by decide) (by decide) (by decide) (by decide)
  apply cleanVal_fixTop _ _ ?_ (by decide) (by decide)
  apply cleanVal_fixTop _ _ ?_ (by decide) (by decide)
  apply cleanVal_fixTop _ _ ?_ (by decide) (by decide)
  apply cleanVal_fixTop _ _ ?_ (by decide) (by decide)
  apply cleanVal_fixTop _ _ ?_ (by decide) (by decide)
  exact h

/-- C4: the Config Normalizer is idempotent — for every distribution
configuration value `c`, applying `clean_distribution_config` twice yields
the same result as applying it once. -/
theorem sar_c4_config_normalizer_idempotent (c : JVal) :
    cleanDistributionConfig (cleanDistributionConfig c) =
      cleanDistributionConfig c := by
  show fixQuantities (cleanVal [] (fixQuantities (cleanVal [] c))) =
    fixQuantities (cleanVal [] c)
  rw [cleanVal_fixQuantities _ (cleanVal_idem c [])]
  exact fixQuantities_idem _

/-! ## Survival of preserved empty strings through the cleaner -/

theorem lookupKey_cleanFields_preserved (p : List String) (d : Bool)
    (fs : List (String × JVal)) (k : String)
    (hk : lookupKey fs k = some (.str ""))
    (hpres : isPreservedEmpty (p ++ [k]) = true)
    (hkFV : ¬ k = "ForwardedValues") :
    lookupKey (cleanFields p d fs) k = some (.str "") := by
  induction fs with
  | nil => simp [lookupKey] at hk
  | cons hd tl ih =>
      obtain ⟨k0, v0⟩ := hd
      by_cases h0 : k0 = k
      · subst h0
        simp [lookupKey] at hk
        subst hk
        rw [cleanFields_cons]
        have g1 : (d && decide (k0 = "ForwardedValues")) = false := by
          simp [hkFV]
        have g3 : (isEmptyStr (JVal.str "") && !isPreservedEmpty (p ++ [k0])) = false := by
          simp [hpres]
        rw [g1, if_neg (by simp)]
        rw [if_neg (by simp [isNull])]
        rw [g3, if_neg (by simp)]
        simp [lookupKey, cleanVal]
      · rw [cleanFields_cons]
        simp only [lookupKey, h0, if_false] at hk
        have htail := ih hk
        split
        · exact htail
        · split
          · exact htail
          · split
            · exact htail
            · simp [lookupKey, h0, htail]

theorem lookupKey_cleanFields_kept (p : List String) (d : Bool)
    (fs : List (String × JVal)) (k : String) (v : JVal)
    (hk : lookupKey fs k = some v)
    (hnn : isNull v = false) (hns : isEmptyStr v = false)
    (hkFV : ¬ k = "ForwardedValues") :
    lookupKey (cleanFields p d fs) k = some (cleanVal (p ++ [k]) v) := by
  induction fs with
  | nil => simp [lookupKey] at hk
  | cons hd tl ih =>
      obtain ⟨k0, v0⟩ := hd
      by_cases h0 : k0 = k
      · subst h0
        simp [lookupKey] at hk
        subst hk
        rw [cleanFields_cons]
        rw [if_neg (by simp [hkFV]), if_neg (by simp [hnn]), if_neg (by simp [hns])]
        simp [lookupKey]
      · rw [cleanFields_cons]
        simp only [lookupKey, h0, if_false] at hk
        have htail := ih hk
        split
        · exact htail
        · split
          · exact htail
          · split
            · exact htail
            · simp [lookupKey, h0, htail]

theorem cleanArr_get (p : List String) (xs : List JVal) :
    ∀ i j, (cleanArr p i xs).get? j =
      (xs.get? j).map (fun v => cleanVal (p ++ [toString (i + j)]) v) := by
  induction xs with
  | nil => intro i j; simp [cleanArr]
  | cons hd tl ih =>
      intro i j
      cases j with
      | zero => simp [cleanArr]
      | succ j =>
          have := ih (i + 1) j
          simp only [cleanArr, List.get?]
          rw [this]
          have harith : i + 1 + j = i + (j + 1) := by omega
          rw [harith]

theorem preserved_originPath (s : String) :
    isPreservedEmpty ["Origins", "Items", s, "OriginPath"] = true := by
  simp [isPreservedEmpty, preserveEmptyPaths, patMatches]

theorem preserved_oai (s : String) :
    isPreservedEmpty
      ["Origins", "Items", s, "S3OriginConfig", "OriginAccessIdentity"] = true := by
  simp [isPreservedEmpty, preserveEmptyPaths, patMatches]

theorem preserved_cbFLE (s : String) :
    isPreservedEmpty ["CacheBehaviors", "Items", s, "FieldLevelEncryptionId"] = true := by
  simp [isPreservedEmpty, preserveEmptyPaths, patMatches]

theorem fixCollDict_keep_items (dd : List (String × JVal)) (l : List JVal)
    (hl : lookupKey dd "Items" = some (.arr l)) (hne : l.length ≠ 0) :
    lookupKey (fixCollDict dd) "Items" = some (.arr l) := by
  rw [fixCollDict_of_arr dd l hl, if_neg hne]
  by_cases hq : (match lookupKey dd "Quantity" with
      | some q => qtyEq q l.length
      | none => false) = true
  · rw [if_pos hq]; exact hl
  · rw [if_neg hq]
    rw [lookupKey_setKey_ne _ _ _ _ (by decide)]
    exact hl

theorem fixCollDict_items_prop (dd : List (String × JVal)) (l : List JVal)
    (hl : lookupKey (fixCollDict dd) "Items" = some (.arr l)) :
    (∃ q, lookupKey (fixCollDict dd) "Quantity" = some q
      ∧ qtyEq q l.length = true) ∧ l ≠ [] := by
  cases hit : isArrOpt (lookupKey dd "Items") with
  | false =>
      rw [fixCollDict_of_not_items dd hit] at hl ⊢
      rw [hl] at hit
      simp [isArrOpt] at hit
  | true =>
      have hsome : ∃ items, lookupKey dd "Items" = some (.arr items) := by
        cases hl0 : lookupKey dd "Items" with
        | none => rw [hl0] at hit; simp [isArrOpt] at hit
        | some w =>
            cases w with
            | arr items => exact ⟨items, rfl⟩
            | null => rw [hl0] at hit; simp [isArrOpt] at hit
            | str s => rw [hl0] at hit; simp [isArrOpt] at hit
            | num n => rw [hl0] at hit; simp [isArrOpt] at hit
            | bool b => rw [hl0] at hit; simp [isArrOpt] at hit
            | obj o => rw [hl0] at hit; simp [isArrOpt] at hit
      obtain ⟨items, hl0⟩ := hsome
      rw [fixCollDict_of_arr dd items hl0] at hl ⊢
      by_cases hlen : items.length = 0
      · rw [if_pos hlen] at hl
        rw [lookupKey_eraseKey_same] at hl
        exact Option.noConfusion hl
      · rw [if_neg hlen] at hl ⊢
        by_cases hq : (match lookupKey dd "Quantity" with
            | some q => qtyEq q items.length
            | none => false) = true
        · rw [if_pos hq] at hl ⊢
          rw [hl0] at hl
          have hli : l = items := by
            injection hl with h1
            injection h1 with h2
            exact h2.symm
          subst hli
          constructor
          · cases hlq : lookupKey dd "Quantity" with
            | none => rw [hlq] at hq; simp at hq
            | some q =>
                rw [hlq] at hq
                exact ⟨q, rfl, hq⟩
          · intro hnil
            subst hnil
            simp at hlen
        · rw [if_neg hq] at hl ⊢
          rw [lookupKey_setKey_ne _ _ _ _ (by decide), hl0] at hl
          have hli : l = items := by
            injection hl with h1
            injection h1 with h2
            exact h2.symm
          subst hli
          refine ⟨⟨.num (l.length : Int), lookupKey_setKey_same _ _ _, by simp [qtyEq]⟩, ?_⟩
          intro hnil
          subst hnil
          simp at hlen

theorem quantity_prop_of_image (o : Option JVal) (d : List (String × JVal))
    (l : List JVal)
    (h : (match o with
          | some (.obj d0) => some (.obj (fixCollDict d0))
          | o0 => o0) = some (.obj d))
    (hl : lookupKey d "Items" = some (.arr l)) :
    (∃ q, lookupKey d "Quantity" = some q ∧ qtyEq q l.length = true) ∧ l ≠ [] := by
  cases o with
  | none => simp at h
  | some w =>
      cases w with
      | obj d0 =>
          simp at h
          subst h
          exact fixCollDict_items_prop d0 l hl
      | null => simp at h
      | str s => simp at h
      | num n => simp at h
      | bool b => simp at h
      | arr xs => simp at h

theorem slot_fixQuantities_ne (v : JVal) (k : String)
    (h1 : k ≠ "Aliases") (h2 : k ≠ "Origins") (h3 : k ≠ "CacheBehaviors")
    (h4 : k ≠ "CustomErrorResponses") (h5 : k ≠ "OrderedCacheBehaviors")
    (h6 : k ≠ "DefaultCacheBehavior") :
    slot (fixQuantities v) k = slot v k := by
  rw [fixQuantities_eq,
    slot_fixNested_ne _ _ _ _ h6, slot_fixNested_ne _ _ _ _ h6,
    slot_fixTop_ne _ _ _ h5, slot_fixTop_ne _ _ _ h4,
    slot_fixTop_ne _ _ _ h3, slot_fixTop_ne _ _ _ h2, slot_fixTop_ne _ _ _ h1]

theorem slot2_fixQuantities_ne_inner (v : JVal) (k2 : String)
    (ha : k2 ≠ "LambdaFunctionAssociations") (hb : k2 ≠ "FunctionAssociations") :
    slot2 (fixQuantities v) "DefaultCacheBehavior" k2 =
      slot2 v "DefaultCacheBehavior" k2 := by
  rw [fixQuantities_eq,
    slot2_fixNested_ne _ _ _ _ hb, slot2_fixNested_ne _ _ _ _ ha,
    slot2_fixTop_ne _ _ _ _ (by decide), slot2_fixTop_ne _ _ _ _ (by decide),
    slot2_fixTop_ne _ _ _ _ (by decide), slot2_fixTop_ne _ _ _ _ (by decide),
    slot2_fixTop_ne _ _ _ _ (by decide)]

theorem slot_some_obj (c : JVal) (k : String) (w : JVal)
    (h : slot c k = some w) : ∃ fs, c = .obj fs ∧ lookupKey fs k = some w := by
  cases c with
  | obj fs => exact ⟨fs, rfl, h⟩
  | null => simp [slot] at h
  | str s => simp [slot] at h
  | num n => simp [slot] at h
  | bool b => simp [slot] at h
  | arr xs => simp [slot] at h

theorem slot2_some_val (c : JVal) (k1 k2 : String) (w : JVal)
    (h : slot2 c k1 k2 = some w) :
    ∃ pp, slot c k1 = some (.obj pp) ∧ lookupKey pp k2 = some w := by
  unfold slot2 at h
  cases hs : slot c k1 with
  | none => rw [hs] at h; simp at h
  | some w0 =>
      cases w0 with
      | obj pp => rw [hs] at h; exact ⟨pp, rfl, h⟩
      | null => rw [hs] at h; simp at h
      | str s => rw [hs] at h; simp at h
      | num n => rw [hs] at h; simp at h
      | bool b => rw [hs] at h; simp at h
      | arr xs => rw [hs] at h; simp at h

theorem slot_cleanVal_preserved (fs : List (String × JVal)) (k : String)
    (hl : lookupKey fs k = some (.str ""))
    (hpres : isPreservedEmpty ([] ++ [k]) = true) (hkFV : ¬ k = "ForwardedValues") :
    slot (cleanVal [] (.obj fs)) k = some (.str "") :=
  lookupKey_cleanFields_preserved []
    (containsKey fs "CachePolicyId" && containsKey fs "ForwardedValues")
    fs k hl hpres hkFV

theorem slot_cleanVal_kept (fs : List (String × JVal)) (k : String) (v : JVal)
    (hl : lookupKey fs k = some v)
    (hnn : isNull v = false) (hns : isEmptyStr v = false)
    (hkFV : ¬ k = "ForwardedValues") :
    slot (cleanVal [] (.obj fs)) k = some (cleanVal ([] ++ [k]) v) :=
  lookupKey_cleanFields_kept []
    (containsKey fs "CachePolicyId" && containsKey fs "ForwardedValues")
    fs k v hl hnn hns hkFV

/-- C8: after normalization by `clean_distribution_config`, every
preserve-listed path that held an empty string still holds it (the paths
`Comment`, `WebACLId`, `DefaultRootObject`, `Origins.Items[*].OriginPath`,
`Origins.Items[*].S3OriginConfig.OriginAccessIdentity`, and
`FieldLevelEncryptionId` in the default and ordered cache behaviors), and
for every counted collection of the handled set the `Quantity` field equals
the length of its `Items` list (Python value equality, `qtyEq`), with
`Items` omitted — hence never present empty — when it would be empty. -/
theorem sar_c8_preserve_and_counts (c : JVal) :
    (slot c "Comment" = some (.str "") →
      slot (cleanDistributionConfig c) "Comment" = some (.str "")) ∧
    (slot c "WebACLId" = some (.str "") →
      slot (cleanDistributionConfig c) "WebACLId" = some (.str "")) ∧
    (slot c "DefaultRootObject" = some (.str "") →
      slot (cleanDistributionConfig c) "DefaultRootObject" = some (.str "")) ∧
    (∀ og xs i oi, slot c "Origins" = some (.obj og) →
      lookupKey og "Items" = some (.arr xs) →
      xs.get? i = some (.obj oi) →
      lookupKey oi "OriginPath" = some (.str "") →
      ∃ og2 xs2 oi2,
        slot (cleanDistributionConfig c) "Origins" = some (.obj og2) ∧
        lookupKey og2 "Items" = some (.arr xs2) ∧
        xs2.get? i = some (.obj oi2) ∧
        lookupKey oi2 "OriginPath" = some (.str "")) ∧
    (∀ og xs i oi s3, slot c "Origins" = some (.obj og) →
      lookupKey og "Items" = some (.arr xs) →
      xs.get? i = some (.obj oi) →
      lookupKey oi "S3OriginConfig" = some (.obj s3) →
      lookupKey s3 "OriginAccessIdentity" = some (.str "") →
      ∃ og2 xs2 oi2 s32,
        slot (cleanDistributionConfig c) "Origins" = some (.obj og2) ∧
        lookupKey og2 "Items" = some (.arr xs2) ∧
        xs2.get? i = some (.obj oi2) ∧
        lookupKey oi2 "S3OriginConfig" = some (.obj s32) ∧
        lookupKey s32 "OriginAccessIdentity" = some (.str "")) ∧
    (slot2 c "DefaultCacheBehavior" "FieldLevelEncryptionId" = some (.str "") →
      slot2 (cleanDistributionConfig c) "DefaultCacheBehavior"
        "FieldLevelEncryptionId" = some (.str "")) ∧
    (∀ cb ys j cbi, slot c "CacheBehaviors" = some (.obj cb) →
      lookupKey cb "Items" = some (.arr ys) →
      ys.get? j = some (.obj cbi) →
      lookupKey cbi "FieldLevelEncryptionId" = some (.str "") →
      ∃ cb2 ys2 cbi2,
        slot (cleanDistributionConfig c) "CacheBehaviors" = some (.obj cb2) ∧
        lookupKey cb2 "Items" = some (.arr ys2) ∧
        ys2.get? j = some (.obj cbi2) ∧
        lookupKey cbi2 "FieldLevelEncryptionId" = some (.str "")) ∧
    (∀ d l, slot (cleanDistributionConfig c) "Aliases" = some (.obj d) →
      lookupKey d "Items" = some (.arr l) →
      (∃ q, lookupKey d "Quantity" = some q ∧ qtyEq q l.length = true) ∧ l ≠ []) ∧
    (∀ d l, slot (cleanDistributionConfig c) "Origins" = some (.obj d) →
      lookupKey d "Items" = some (.arr l) →
      (∃ q, lookupKey d "Quantity" = some q ∧ qtyEq q l.length = true) ∧ l ≠ []) ∧
    (∀ d l, slot (cleanDistributionConfig c) "CacheBehaviors" = some (.obj d) →
      lookupKey d "Items" = some (.arr l) →
      (∃ q, lookupKey d "Quantity" = some q ∧ qtyEq q l.length = true) ∧ l ≠ []) ∧
    (∀ d l, slot (cleanDistributionConfig c) "CustomErrorResponses" = some (.obj d) →
      lookupKey d "Items" = some (.arr l) →
      (∃ q, lookupKey d "Quantity" = some q ∧ qtyEq q l.length = true) ∧ l ≠ []) ∧
    (∀ d l, slot (cleanDistributionConfig c) "OrderedCacheBehaviors" = some (.obj d) →
      lookupKey d "Items" = some (.arr l) →
      (∃ q, lookupKey d "Quantity" = some q ∧ qtyEq q l.length = true) ∧ l ≠ []) ∧
    (∀ d l, slot2 (cleanDistributionConfig c) "DefaultCacheBehavior"
        "LambdaFunctionAssociations" = some (.obj d) →
      lookupKey d "Items" = some (.arr l) →
      (∃ q, lookupKey d "Quantity" = some q ∧ qtyEq q l.length = true) ∧ l ≠ []) ∧
    (∀ d l, slot2 (cleanDistributionConfig c) "DefaultCacheBehavior"
        "FunctionAssociations" = some (.obj d) →
      lookupKey d "Items" = some (.arr l) →
      (∃ q, lookupKey d "Quantity" = some q ∧ qtyEq q l.length = true) ∧ l ≠ []) := by
  refine ⟨?_, ?_, ?_, ?_, ?_, ?_, ?_, ?_, ?_, ?_, ?_, ?_, ?_, ?_⟩
  · -- Comment
    intro h
    obtain ⟨fs, rfl, hl⟩ := slot_some_obj c "Comment" _ h
    have h1 := slot_cleanVal_preserved fs "Comment" hl (by decide) (by decide)
    show slot (fixQuantities (cleanVal [] (.obj fs))) "Comment" = some (.str "")
    rw [slot_fixQuantities_ne _ _ (by decide) (by decide) (by decide) (by decide)
      (by decide) (by decide)]
    exact h1
  · -- WebACLId
    intro h
    obtain ⟨fs, rfl, hl⟩ := slot_some_obj c "WebACLId" _ h
    have h1 := slot_cleanVal_preserved fs "WebACLId" hl (by decide) (by decide)
    show slot (fixQuantities (cleanVal [] (.obj fs))) "WebACLId" = some (.str "")
    rw [slot_fixQuantities_ne _ _ (by decide) (by decide) (by decide) (by decide)
      (by decide) (by decide)]
    exact h1
  · -- DefaultRootObject
    intro h
    obtain ⟨fs, rfl, hl⟩ := slot_some_obj c "DefaultRootObject" _ h
    have h1 := slot_cleanVal_preserved fs "DefaultRootObject" hl (by decide) (by decide)
    show slot (fixQuantities (cleanVal [] (.obj fs))) "DefaultRootObject" = some (.str "")
    rw [slot_fixQuantities_ne _ _ (by decide) (by decide) (by decide) (by decide)
      (by decide) (by decide)]
    exact h1
  · -- Origins.Items[*].OriginPath
    intro og xs i oi hog hit hel hop
    obtain ⟨fs, rfl, hl⟩ := slot_some_obj c "Origins" _ hog
    have hogy : slot (cleanVal [] (.obj fs)) "Origins" =
        some (cleanVal ["Origins"] (.obj og)) :=
      slot_cleanVal_kept fs "Origins" _ hl rfl rfl (by decide)
    have hit' : lookupKey (cleanFields ["Origins"]
        (containsKey og "CachePolicyId" && containsKey og "ForwardedValues") og)
        "Items" = some (.arr (cleanArr ["Origins", "Items"] 0 xs)) :=
      lookupKey_cleanFields_kept ["Origins"] _ og "Items" _ hit rfl rfl (by decide)
    have hel' : (cleanArr ["Origins", "Items"] 0 xs).get? i =
        some (cleanVal ["Origins", "Items", toString i] (.obj oi)) := by
      rw [cleanArr_get, hel]
      have hz : (0 : Nat) + i = i := by omega
      rw [hz]
      rfl
    have hop' : lookupKey (cleanFields ["Origins", "Items", toString i]
        (containsKey oi "CachePolicyId" && containsKey oi "ForwardedValues") oi)
        "OriginPath" = some (.str "") :=
      lookupKey_cleanFields_preserved ["Origins", "Items", toString i] _ oi
        "OriginPath" hop (preserved_originPath (toString i)) (by decide)
    have hlen : (cleanArr ["Origins", "Items"] 0 xs).length ≠ 0 := by
      intro hz
      rw [List.get?_eq_none.mpr (by omega)] at hel'
      exact Option.noConfusion hel'
    have hchar := slot_fixQuantities_Origins (cleanVal [] (.obj fs))
    rw [hogy] at hchar
    refine ⟨fixCollDict (cleanFields ["Origins"]
        (containsKey og "CachePolicyId" && containsKey og "ForwardedValues") og),
      cleanArr ["Origins", "Items"] 0 xs,
      cleanFields ["Origins", "Items", toString i]
        (containsKey oi "CachePolicyId" && containsKey oi "ForwardedValues") oi,
      ?_, ?_, hel', hop'⟩
    · exact hchar
    · exact fixCollDict_keep_items _ _ hit' hlen
  · -- Origins.Items[*].S3OriginConfig.OriginAccessIdentity
    intro og xs i oi s3 hog hit hel hs3 hoai
    obtain ⟨fs, rfl, hl⟩ := slot_some_obj c "Origins" _ hog
    have hogy : slot (cleanVal [] (.obj fs)) "Origins" =
        some (cleanVal ["Origins"] (.obj og)) :=
      slot_cleanVal_kept fs "Origins" _ hl rfl rfl (by decide)
    have hit' : lookupKey (cleanFields ["Origins"]
        (containsKey og "CachePolicyId" && containsKey og "ForwardedValues") og)
        "Items" = some (.arr (cleanArr ["Origins", "Items"] 0 xs)) :=
      lookupKey_cleanFields_kept ["Origins"] _ og "Items" _ hit rfl rfl (by decide)
    have hel' : (cleanArr ["Origins", "Items"] 0 xs).get? i =
        some (cleanVal ["Origins", "Items", toString i] (.obj oi)) := by
      rw [cleanArr_get, hel]
      have hz : (0 : Nat) + i = i := by omega
      rw [hz]
      rfl
    have hs3' : lookupKey (cleanFields ["Origins", "Items", toString i]
        (containsKey oi "CachePolicyId" && containsKey oi "ForwardedValues") oi)
        "S3OriginConfig" =
        some (cleanVal ["Origins", "Items", toString i, "S3OriginConfig"] (.obj s3)) :=
      lookupKey_cleanFields_kept ["Origins", "Items", toString i] _ oi
        "S3OriginConfig" _ hs3 rfl rfl (by decide)
    have hoai' : lookupKey (cleanFields ["Origins", "Items", toString i, "S3OriginConfig"]
        (containsKey s3 "CachePolicyId" && containsKey s3 "ForwardedValues") s3)
        "OriginAccessIdentity" = some (.str "") :=
      lookupKey_cleanFields_preserved _ _ s3 "OriginAccessIdentity" hoai
        (preserved_oai (toString i)) (by decide)
    have hlen : (cleanArr ["Origins", "Items"] 0 xs).length ≠ 0 := by
      intro hz
      rw [List.get?_eq_none.mpr (by omega)] at hel'
      exact Option.noConfusion hel'
    have hchar := slot_fixQuantities_Origins (cleanVal [] (.obj fs))
    rw [hogy] at hchar
    refine ⟨fixCollDict (cleanFields ["Origins"]
        (containsKey og "CachePolicyId" && containsKey og "ForwardedValues") og),
      cleanArr ["Origins", "Items"] 0 xs,
      cleanFields ["Origins", "Items", toString i]
        (containsKey oi "CachePolicyId" && containsKey oi "ForwardedValues") oi,
      cleanFields ["Origins", "Items", toString i, "S3OriginConfig"]
        (containsKey s3 "CachePolicyId" && containsKey s3 "ForwardedValues") s3,
      hchar, fixCollDict_keep_items _ _ hit' hlen, hel', hs3', hoai'⟩
  · -- DefaultCacheBehavior.FieldLevelEncryptionId
    intro h
    obtain ⟨dcb, hslot, hfle⟩ := slot2_some_val c "DefaultCacheBehavior"
      "FieldLevelEncryptionId" _ h
    obtain ⟨fs, rfl, hl⟩ := slot_some_obj c "DefaultCacheBehavior" _ hslot
    have hdcby : slot (cleanVal [] (.obj fs)) "DefaultCacheBehavior" =
        some (cleanVal ["DefaultCacheBehavior"] (.obj dcb)) :=
      slot_cleanVal_kept fs "DefaultCacheBehavior" _ hl rfl rfl (by decide)
    have hfle' : lookupKey (cleanFields ["DefaultCacheBehavior"]
        (containsKey dcb "CachePolicyId" && containsKey dcb "ForwardedValues") dcb)
        "FieldLevelEncryptionId" = some (.str "") :=
      lookupKey_cleanFields_preserved ["DefaultCacheBehavior"] _ dcb
        "FieldLevelEncryptionId" hfle (by decide) (by decide)
    show slot2 (fixQuantities (cleanVal [] (.obj fs))) "DefaultCacheBehavior"
      "FieldLevelEncryptionId" = some (.str "")
    rw [slot2_fixQuantities_ne_inner _ _ (by decide) (by decide)]
    unfold slot2
    rw [hdcby]
    exact hfle'
  · -- CacheBehaviors.Items[*].FieldLevelEncryptionId
    intro cb ys j cbi hcb hit hel hfle
    obtain ⟨fs, rfl, hl⟩ := slot_some_obj c "CacheBehaviors" _ hcb
    have hcby : slot (cleanVal [] (.obj fs)) "CacheBehaviors" =
        some (cleanVal ["CacheBehaviors"] (.obj cb)) :=
      slot_cleanVal_kept fs "CacheBehaviors" _ hl rfl rfl (by decide)
    have hit' : lookupKey (cleanFields ["CacheBehaviors"]
        (containsKey cb "CachePolicyId" && containsKey cb "ForwardedValues") cb)
        "Items" = some (.arr (cleanArr ["CacheBehaviors", "Items"] 0 ys)) :=
      lookupKey_cleanFields_kept ["CacheBehaviors"] _ cb "Items" _ hit rfl rfl (by decide)
    have hel' : (cleanArr ["CacheBehaviors", "Items"] 0 ys).get? j =
        some (cleanVal ["CacheBehaviors", "Items", toString j] (.obj cbi)) := by
      rw [cleanArr_get, hel]
      have hz : (0 : Nat) + j = j := by omega
      rw [hz]
      rfl
    have hfle' : lookupKey (cleanFields ["CacheBehaviors", "Items", toString j]
        (containsKey cbi "CachePolicyId" && containsKey cbi "ForwardedValues") cbi)
        "FieldLevelEncryptionId" = some (.str "") :=
      lookupKey_cleanFields_preserved _ _ cbi "FieldLevelEncryptionId" hfle
        (preserved_cbFLE (toString j)) (by decide)
    have hlen : (cleanArr ["CacheBehaviors", "Items"] 0 ys).length ≠ 0 := by
      intro hz
      rw [List.get?_eq_none.mpr (by omega)] at hel'
      exact Option.noConfusion hel'
    have hchar := slot_fixQuantities_CacheBehaviors (cleanVal [] (.obj fs))
    rw [hcby] at hchar
    exact ⟨fixCollDict (cleanFields ["CacheBehaviors"]
        (containsKey cb "CachePolicyId" && containsKey cb "ForwardedValues") cb),
      cleanArr ["CacheBehaviors", "Items"] 0 ys,
      cleanFields ["CacheBehaviors", "Items", toString j]
        (containsKey cbi "CachePolicyId" && containsKey cbi "ForwardedValues") cbi,
      hchar, fixCollDict_keep_items _ _ hit' hlen, hel', hfle'⟩
  · -- Aliases quantity
    intro d l hslot hitems
    have hchar := slot_fixQuantities_Aliases (cleanVal [] c)
    have himg : (match slot (cleanVal [] c) "Aliases" with
        | some (.obj d0) => some (.obj (fixCollDict d0))
        | o0 => o0) = some (.obj d) := by
      rw [← hchar]
      exact hslot
    exact quantity_prop_of_image _ d l himg hitems
  · -- Origins quantity
    intro d l hslot hitems
    have hchar := slot_fixQuantities_Origins (cleanVal [] c)
    have himg : (match slot (cleanVal [] c) "Origins" with
        | some (.obj d0) => some (.obj (fixCollDict d0))
        | o0 => o0) = some (.obj d) := by
      rw [← hchar]
      exact hslot
    exact quantity_prop_of_image _ d l himg hitems
  · -- CacheBehaviors quantity
    intro d l hslot hitems
    have hchar := slot_fixQuantities_CacheBehaviors (cleanVal [] c)
    have himg : (match slot (cleanVal [] c) "CacheBehaviors" with
        | some (.obj d0) => some (.obj (fixCollDict d0))
        | o0 => o0) = some (.obj d) := by
      rw [← hchar]
      exact hslot
    exact quantity_prop_of_image _ d l himg hitems
  · -- CustomErrorResponses quantity
    intro d l hslot hitems
    have hchar := slot_fixQuantities_CustomErrorResponses (cleanVal [] c)
    have himg : (match slot (cleanVal [] c) "CustomErrorResponses" with
        | some (.obj d0) => some (.obj (fixCollDict d0))
        | o0 => o0) = some (.obj d) := by
      rw [← hchar]
      exact hslot
    exact quantity_prop_of_image _ d l himg hitems
  · -- OrderedCacheBehaviors quantity
    intro d l hslot hitems
    have hchar := slot_fixQuantities_OrderedCacheBehaviors (cleanVal [] c)
    have himg : (match slot (cleanVal [] c) "OrderedCacheBehaviors" with
        | some (.obj d0) => some (.obj (fixCollDict d0))
        | o0 => o0) = some (.obj d) := by
      rw [← hchar]
      exact hslot
    exact quantity_prop_of_image _ d l himg hitems
  · -- DefaultCacheBehavior.LambdaFunctionAssociations quantity
    intro d l hslot hitems
    have hchar := slot2_fixQuantities_LFA (cleanVal [] c)
    have himg : (match slot2 (cleanVal [] c) "DefaultCacheBehavior"
          "LambdaFunctionAssociations" with
        | some (.obj d0) => some (.obj (fixCollDict d0))
        | o0 => o0) = some (.obj d) := by
      rw [← hchar]
      exact hslot
    exact quantity_prop_of_image _ d l himg hitems
  · -- DefaultCacheBehavior.FunctionAssociations quantity
    intro d l hslot hitems
    have hchar := slot2_fixQuantities_FA (cleanVal [] c)
    have himg : (match slot2 (cleanVal [] c) "DefaultCacheBehavior"
          "FunctionAssociations" with
        | some (.obj d0) => some (.obj (fixCollDict d0))
        | o0 => o0) = some (.obj d) := by
      rw [← hchar]
      exact hslot
    exact quantity_prop_of_image _ d l himg hitems

/-- A concrete distribution configuration exercising the preserve-list and
counted-collection paths. -/
def c8ex : JVal :=
  .obj [("Comment", .str ""),
        ("Origins", .obj [("Items", .arr [.obj [("OriginPath", .str ""),
          ("S3OriginConfig", .obj [("OriginAccessIdentity", .str "")])]])]),
        ("Aliases", .obj [("Items", .arr [.str "a"]), ("Quantity", .num 0)])]

/-- Witness for C8 at a concrete configuration. -/
theorem sar_c8_witness :
    slot (cleanDistributionConfig c8ex) "Comment" = some (.str "") ∧
    (∃ og2 xs2 oi2,
      slot (cleanDistributionConfig c8ex) "Origins" = some (.obj og2) ∧
      lookupKey og2 "Items" = some (.arr xs2) ∧
      xs2.get? 0 = some (.obj oi2) ∧
      lookupKey oi2 "OriginPath" = some (.str "")) ∧
    ((∃ q, lookupKey [("Items", JVal.arr [JVal.str "a"]), ("Quantity", JVal.num 1)]
        "Quantity" = some q ∧ qtyEq q 1 = true) ∧ [JVal.str "a"] ≠ []) :=
  ⟨(sar_c8_preserve_and_counts c8ex).1 rfl,
   (sar_c8_preserve_and_counts c8ex).2.2.2.1 _ _ 0 _ rfl rfl rfl rfl,
   (sar_c8_preserve_and_counts c8ex).2.2.2.2.2.2.2.1
     [("Items", JVal.arr [JVal.str "a"]), ("Quantity", JVal.num 1)]
     [JVal.str "a"] rfl rfl⟩

/-! ## C7: conflict convergence of the response-policy delete loop -/

/-- A delete-outcome script reporting a stale-token conflict on the first
`n` attempts and success afterwards. -/
def polConflictScript (n : Nat) : Nat → PolDelOut :=
  fun i => if i < n then .precond else .ok

/-- A read script that always finds the policy. -/
def polReadsFound : Nat → PolReadOut := fun _ => .found

theorem polDeleteAux_conflicts (dels : Nat → PolDelOut) (n : Nat) :
    ∀ (r attempt rc : Nat) (sl : List Nat), n ≤ r →
    (∀ i, i < n → dels (attempt + i) = .precond) →
    dels (attempt + n) = .ok →
    polDeleteAux polReadsFound dels (r + 1) attempt rc sl =
      ⟨.ok (), rc + n + 1, sl ++ List.replicate n 1⟩ := by
  induction n with
  | zero =>
      intro r attempt rc sl hr hconf hok
      have hok' : dels attempt = .ok := by simpa using hok
      rw [polDeleteAux]
      simp only [polReadsFound]
      rw [hok']
      simp
  | succ n ihn =>
      intro r attempt rc sl hr hconf hok
      obtain ⟨r', rfl⟩ : ∃ r', r = r' + 1 := ⟨r - 1, by omega⟩
      have hpre : dels attempt = .precond := by
        have := hconf 0 (by omega)
        simpa using this
      rw [polDeleteAux]
      simp only [polReadsFound]
      rw [hpre]
      show polDeleteAux polReadsFound dels (r' + 1) (attempt + 1) (rc + 1)
        (sl ++ [1]) = _
      have hrec := ihn r' (attempt + 1) (rc + 1) (sl ++ [1]) (by omega)
        (fun i hi => by
          have := hconf (i + 1) (by omega)
          have harith : attempt + 1 + i = attempt + (i + 1) := by omega
          rw [harith]
          exact this)
        (by
          have harith : attempt + 1 + n = attempt + (n + 1) := by omega
          rw [harith]
          exact hok)
      rw [hrec]
      have harith2 : rc + 1 + n + 1 = rc + (n + 1) + 1 := by omega
      have hlist : (sl ++ [1]) ++ List.replicate n 1 =
          sl ++ List.replicate (n + 1) 1 := by
        rw [List.append_assoc]
        rfl
      rw [harith2, hlist]

/-- C7: for every `N` below the configured `max_retries` of
`delete_response_policy_with_retry`, when the versioned delete reports a
stale-token conflict (`PreconditionFailed`) exactly `N` times and then
succeeds, the loop re-reads the policy and its ETag before each attempt,
succeeds after exactly `N + 1` read attempts, and never exceeds
`max_retries` attempts. -/
theorem sar_c7_conflict_convergence (N : Nat) (hN : N < 10) :
    (runPolicyDelete polReadsFound (polConflictScript N)).result = .ok () ∧
    (runPolicyDelete polReadsFound (polConflictScript N)).readsCount = N + 1 ∧
    (runPolicyDelete polReadsFound (polConflictScript N)).readsCount ≤ 10 ∧
    (runPolicyDelete polReadsFound (polConflictScript N)).sleeps =
      List.replicate N 1 := by
  have h := polDeleteAux_conflicts (polConflictScript N) N 9 0 0 [] (by omega)
    (fun i hi => by simp [polConflictScript, hi])
    (by simp [polConflictScript])
  unfold runPolicyDelete
  rw [h]
  refine ⟨rfl, ?_, ?_, ?_⟩
  · show 0 + N + 1 = N + 1
    omega
  · show 0 + N + 1 ≤ 10
    omega
  · show [] ++ List.replicate N 1 = List.replicate N 1
    simp

/-- Witness for C7 at `N = 2`. -/
theorem sar_c7_witness :
    (runPolicyDelete polReadsFound (polConflictScript 2)).result = .ok () ∧
    (runPolicyDelete polReadsFound (polConflictScript 2)).readsCount = 3 :=
  ⟨(sar_c7_conflict_convergence 2 (by decide)).1,
   (sar_c7_conflict_convergence 2 (by decide)).2.1⟩

/-! ## C5: backoff delay sequences of the retry loops -/

/-- Delete script where every `delete_function` attempt is blocked. -/
def fnAllBlocked : Nat → FnDelOut := fun _ => .blocked

/-- Delete script where every `delete_key_group` attempt reports in-use. -/
def kgAllInUse : Nat → KgDelOut := fun _ => .inUse

/-- Delete script where every response-policy delete reports in-use. -/
def polAllInUse : Nat → PolDelOut := fun _ => .inUse

/-- Delete script where every response-policy delete reports a stale
ETag. -/
def polAllPrecond : Nat → PolDelOut := fun _ => .precond

/-- C5 counterexample: the claim that every bounded-backoff retry loop
sleeps `min(baseDelay * 2^n, maxDelay)` before retry `n` is false at the
concrete all-blocked run of `delete_function_with_retry`, whose delays are
`min((n+1)*60, 300)` — linear, not exponential: no `baseDelay`/`maxDelay`
pair matches its first four delays 60, 120, 180, 240. -/
theorem sar_c5_counterexample :
    ¬ ∃ base maxD : Nat, ∀ n, n < 10 →
      (runFnDeleteSleeps fnAllBlocked).get? n = some (min (base * 2 ^ n) maxD) := by
  rintro ⟨b, c, h⟩
  have hlist : runFnDeleteSleeps fnAllBlocked =
      [60, 120, 180, 240, 300, 300, 300, 300, 300, 300] := by rfl
  have h0 := h 0 (by decide)
  have h1 := h 1 (by decide)
  have h2 := h 2 (by decide)
  have h3 := h 3 (by decide)
  rw [hlist] at h0 h1 h2 h3
  simp [pow_succ] at h0 h1 h2 h3
  omega

/-- C5 as corrected: the actual delay sequences of the three retry loops.
`delete_function_with_retry` sleeps `min((n+1)*60, 300)` seconds before
retry `n`; `delete_key_group_with_retry` sleeps `(n+1)*30` seconds (only
while attempts remain); `delete_response_policy_with_retry` sleeps `2^n`
seconds on an in-use error and a constant 1 second on a stale-ETag
conflict. -/
theorem sar_c5_retry_delays :
    (∀ n, n < 10 → (runFnDeleteSleeps fnAllBlocked).get? n =
      some (min ((n + 1) * 60) 300)) ∧
    (∀ n, n < 4 → (runKgDeleteSleeps kgAllInUse).get? n = some ((n + 1) * 30)) ∧
    (∀ n, n < 10 → (runPolicyDelete polReadsFound polAllInUse).sleeps.get? n =
      some (2 ^ n)) ∧
    (∀ n, n < 10 → (runPolicyDelete polReadsFound polAllPrecond).sleeps.get? n =
      some 1) := by
  decide

/-- Witness for the corrected C5 at `n = 2`. -/
theorem sar_c5_witness :
    (runFnDeleteSleeps fnAllBlocked).get? 2 = some (min ((2 + 1) * 60) 300) ∧
    (runKgDeleteSleeps kgAllInUse).get? 2 = some ((2 + 1) * 30) :=
  ⟨sar_c5_retry_delays.1 2 (by decide), sar_c5_retry_delays.2.1 2 (by decide)⟩

/-! ## C1: exactly one terminal callback -/

theorem runLFHandler_shape (ev : LFEvent) (et : Bool) (proc : ProcOutcome)
    (nt : Bool) (o1 o2 : Bool) :
    (∃ st d, runLFHandler ev et proc nt o1 o2 =
      sendCfn ev.hasResponseURL o1 o2 st d) ∨
    (∃ st d, runLFHandler ev et proc nt o1 o2 =
      sendEmergency ev.hasResponseURL o1 st d) := by
  unfold runLFHandler lfHandleErr
  repeat' split
  all_goals first
    | exact Or.inl ⟨_, _, rfl⟩
    | exact Or.inr ⟨_, _, rfl⟩

/-- C1: for every invocation of the dispatcher of lambda_function.py on an
event carrying a `ResponseURL`, at least one and at most two callback PUTs
are attempted, at most one is ever delivered, a successful primary PUT is
the only delivery and stops the invocation, a second (emergency) PUT is
attempted only after the primary failed and then delivers the single
callback when its transport works, and zero deliveries can occur only when
the transport failed on every attempted PUT — regardless of whether
processing succeeds, raises, or exceeds the time budget. -/
theorem sar_c1_single_callback (ev : LFEvent) (et : Bool) (proc : ProcOutcome)
    (nt : Bool) (o1 o2 : Bool) (hurl : ev.hasResponseURL = true) :
    1 ≤ (runLFHandler ev et proc nt o1 o2).length ∧
    (runLFHandler ev et proc nt o1 o2).length ≤ 2 ∧
    deliveredCount (runLFHandler ev et proc nt o1 o2) ≤ 1 ∧
    (o1 = true → deliveredCount (runLFHandler ev et proc nt o1 o2) = 1 ∧
      (runLFHandler ev et proc nt o1 o2).length = 1) ∧
    ((runLFHandler ev et proc nt o1 o2).length = 2 → o1 = false) ∧
    (o1 = false → o2 = true → (runLFHandler ev et proc nt o1 o2).length = 2 →
      deliveredCount (runLFHandler ev et proc nt o1 o2) = 1) ∧
    (deliveredCount (runLFHandler ev et proc nt o1 o2) = 0 → o1 = false) := by
  rcases runLFHandler_shape ev et proc nt o1 o2 with ⟨st, d, hE⟩ | ⟨st, d, hE⟩ <;>
    rw [hE, hurl] <;> cases o1 <;> cases o2 <;>
    simp [sendCfn, sendEmergency, deliveredCount]

/-- Witness for C1 at a concrete Create event with a working transport. -/
theorem sar_c1_witness :
    deliveredCount (runLFHandler ⟨true, some "Create", some "VpcLink", some "L"⟩
      false (.ok "p" []) false true true) = 1 :=
  ((sar_c1_single_callback ⟨true, some "Create", some "VpcLink", some "L"⟩
    false (.ok "p" []) false true true rfl).2.2.2.1 rfl).1

/-! ## C3: budget exhaustion policy -/

/-- C3: when the time budget is exceeded (a `TimeoutError` escapes the
handler body), both dispatchers convert it to a successful terminal result
(flagged `TimeoutOnDelete`) if the event's verb is `Delete`, and surface a
`FAILED` response when the verb is `Create` or `Update`. -/
theorem sar_c3_timeout_policy (ev : LFEvent) (cev : CFEvent) (nt : Bool)
    (o2 o2' : Bool)
    (hurl : ev.hasResponseURL = true)
    (hv1 : truthyOpt ev.requestType = true)
    (hv2 : truthyOpt ev.resourceType = true)
    (hv3 : truthyOpt ev.logicalResourceId = true)
    (hcurl : cev.hasResponseURL = true)
    (hcp : cev.hasResourceProps = true)
    (hcres : cev.resourceType.isSome = true) :
    (ev.requestType = some "Delete" →
      deliveredStatuses (runLFHandler ev false .timeout nt true o2) = ["SUCCESS"] ∧
      (runLFHandler ev false .timeout nt true o2).map (fun p => p.1.dataStatus) =
        [some "TimeoutOnDelete"]) ∧
    (ev.requestType = some "Create" ∨ ev.requestType = some "Update" →
      deliveredStatuses (runLFHandler ev false .timeout nt true o2) = ["FAILED"]) ∧
    (cev.requestType = some "Delete" →
      deliveredStatuses (runCFHandler cev .timeout true o2') = ["SUCCESS"] ∧
      (runCFHandler cev .timeout true o2').map (fun p => p.1.dataStatus) =
        [some "TimeoutOnDelete"]) ∧
    (cev.requestType = some "Create" ∨ cev.requestType = some "Update" →
      deliveredStatuses (runCFHandler cev .timeout true o2') = ["FAILED"]) := by
  refine ⟨?_, ?_, ?_, ?_⟩
  · intro hD
    rw [runLFHandler]
    simp [hv1, hv2, hv3, hD, hurl,
      (by decide : truthyOpt (some "Delete") = true), sendCfn,
      deliveredStatuses, mkBody, lookupS]
  · intro hCU
    rw [runLFHandler]
    rcases hCU with hC | hC <;>
      simp [hv1, hv2, hv3, hC, hurl,
        (by decide : truthyOpt (some "Create") = true),
        (by decide : truthyOpt (some "Update") = true), sendEmergency,
        deliveredStatuses, mkBody]
  · intro hD
    rw [runCFHandler]
    simp [hD, hcp, hcres, Option.isSome_iff_ne_none.mp hcres, hcurl, cfSend,
      deliveredStatuses, mkBody, lookupS]
  · intro hCU
    rw [runCFHandler]
    rcases hCU with hC | hC <;>
      simp [hC, hcp, hcres, Option.isSome_iff_ne_none.mp hcres, hcurl, cfSend,
        deliveredStatuses, mkBody, lookupS]

/-- Witness for C3 at concrete Delete and Create events. -/
theorem sar_c3_witness :
    deliveredStatuses (runLFHandler ⟨true, some "Delete", some "VpcLink", some "L"⟩
      false .timeout false true true) = ["SUCCESS"] ∧
    deliveredStatuses (runCFHandler ⟨true, some "Create", true, some "PublicKey"⟩
      .timeout true true) = ["FAILED"] :=
  ⟨((sar_c3_timeout_policy ⟨true, some "Delete", some "VpcLink", some "L"⟩
      ⟨true, some "Create", true, some "PublicKey"⟩ false true true
      rfl rfl rfl rfl rfl rfl rfl).1 rfl).1,
   (sar_c3_timeout_policy ⟨true, some "Delete", some "VpcLink", some "L"⟩
      ⟨true, some "Create", true, some "PublicKey"⟩ false true true
      rfl rfl rfl rfl rfl rfl rfl).2.2.2 (Or.inl rfl)⟩

/-! ## C9: validation failures and the terminal callback status -/

/-- A Delete event with the required `ResourceType` absent. -/
def c9ev : LFEvent := ⟨true, some "Delete", none, some "Logic"⟩

/-- C9 counterexample: for a `Delete` event missing `ResourceType`,
validation fails, but the dispatcher of lambda_function.py delivers a
`SUCCESS` callback (flagged `DeleteFailed`), not the `FAILED` callback the
claim requires for every event with an absent required field. -/
theorem sar_c9_counterexample :
    deliveredStatuses (runLFHandler c9ev false (.ok "p" []) false true true) =
      ["SUCCESS"] ∧
    (runLFHandler c9ev false (.ok "p" []) false true true).map
      (fun p => p.1.dataStatus) = [some "DeleteFailed"] ∧
    ("SUCCESS" : String) ≠ "FAILED" := by
  refine ⟨rfl, rfl, by decide⟩

/-- C9 as corrected: an absent (or empty) `RequestType` always yields a
`FAILED` terminal callback; an absent `ResourceType` or
`LogicalResourceId` yields a `FAILED` callback when the verb is `Create`
or `Update`; but when the verb is `Delete`, the validation error is
converted by the delete-leniency policy into a `SUCCESS` callback flagged
`DeleteFailed` (outside the emergency margin). -/
theorem sar_c9_validation_failures (ev : LFEvent) (et : Bool)
    (proc : ProcOutcome) (nt : Bool) (o2 : Bool)
    (hurl : ev.hasResponseURL = true) :
    (truthyOpt ev.requestType = false →
      deliveredStatuses (runLFHandler ev et proc nt true o2) = ["FAILED"]) ∧
    ((ev.requestType = some "Create" ∨ ev.requestType = some "Update") →
      truthyOpt ev.resourceType = false →
      deliveredStatuses (runLFHandler ev et proc nt true o2) = ["FAILED"]) ∧
    ((ev.requestType = some "Create" ∨ ev.requestType = some "Update") →
      truthyOpt ev.resourceType = true →
      truthyOpt ev.logicalResourceId = false →
      deliveredStatuses (runLFHandler ev et proc nt true o2) = ["FAILED"]) ∧
    (ev.requestType = some "Delete" → truthyOpt ev.resourceType = false →
      nt = false →
      deliveredStatuses (runLFHandler ev et proc nt true o2) = ["SUCCESS"] ∧
      (runLFHandler ev et proc nt true o2).map (fun p => p.1.dataStatus) =
        [some "DeleteFailed"]) := by
  refine ⟨?_, ?_, ?_, ?_⟩
  · intro h
    have hnotdel : ¬ ev.requestType = some "Delete" := by
      intro hd
      rw [hd] at h
      exact absurd h (by decide)
    rw [runLFHandler.eq_def]
    cases nt <;>
      simp [h, hurl, hnotdel, lfHandleErr, sendCfn, sendEmergency,
        deliveredStatuses, mkBody, lookupS]
  · intro hCU h
    rcases hCU with hC | hC <;>
      · rw [runLFHandler.eq_def]
        cases nt <;>
          simp [h, hC, hurl, lfHandleErr, sendCfn, sendEmergency,
            deliveredStatuses, mkBody, lookupS,
            (by decide : truthyOpt (some "Create") = true),
            (by decide : truthyOpt (some "Update") = true)]
  · intro hCU h2 h3
    rcases hCU with hC | hC <;>
      · rw [runLFHandler.eq_def]
        cases nt <;>
          simp [h2, h3, hC, hurl, lfHandleErr, sendCfn, sendEmergency,
            deliveredStatuses, mkBody, lookupS,
            (by decide : truthyOpt (some "Create") = true),
            (by decide : truthyOpt (some "Update") = true)]
  · intro hD h2 hnt
    subst hnt
    rw [runLFHandler.eq_def]
    simp [h2, hD, hurl, lfHandleErr, sendCfn, deliveredStatuses, mkBody,
      lookupS, (by decide : truthyOpt (some "Delete") = true)]

/-- Witness for the corrected C9 at concrete events. -/
theorem sar_c9_witness :
    deliveredStatuses (runLFHandler ⟨true, none, some "VpcLink", some "L"⟩
      false (.ok "p" []) false true true) = ["FAILED"] ∧
    deliveredStatuses (runLFHandler ⟨true, some "Create", none, some "L"⟩
      false (.ok "p" []) false true true) = ["FAILED"] :=
  ⟨(sar_c9_validation_failures ⟨true, none, some "VpcLink", some "L"⟩
      false (.ok "p" []) false true rfl).1 rfl,
   (sar_c9_validation_failures ⟨true, some "Create", none, some "L"⟩
      false (.ok "p" []) false true rfl).2.1 (Or.inl rfl) rfl⟩

/-! ## C2: lenient Delete and the shape of the failure record -/

/-- A delete script on which every attempt fails with a permanent
(access-denied) client error. -/
def polAllFatal : Nat → PolDelOut := fun _ => .fatal "AccessDenied"

/-- A Delete event for a cloudfront-manager `ResponsePolicy` resource. -/
def c2ev : CFEvent := ⟨true, some "Delete", true, some "ResponsePolicy"⟩

/-- C2 counterexample: in cloudfront_manager.py a permanent remote delete
failure is swallowed inside `delete_resource`; the retry loop ends with the
fatal error, yet the delivered callback is `SUCCESS` with `Data.Status`
equal to `Deleted` — not `DeleteFailed` — and carries no failure detail,
contradicting the claim for this Delete request. -/
theorem sar_c2_counterexample :
    (runPolicyDelete polReadsFound polAllFatal).result = .error "AccessDenied" ∧
    runCFHandler c2ev
      (.ok "pol-1" (cfDeleteResponsePolicy "pol-1" polReadsFound polAllFatal))
      true true =
      [(⟨"SUCCESS", some "Deleted", none⟩, true)] ∧
    some "Deleted" ≠ some "DeleteFailed" := by
  refine ⟨rfl, rfl, by decide⟩

/-- C2 as corrected: a Delete whose underlying remote delete fails with a
permanent error still produces a Success-shaped terminal result in both
dispatchers; in lambda_function.py the resource handler (here
`VpcLinkResource.delete`) records `Status: DeleteFailed` and the failure
detail in the response data and the dispatcher sends `SUCCESS` with that
data, while in cloudfront_manager.py `delete_resource` swallows the remote
failure and the `SUCCESS` callback reports `Status: Deleted` with no
failure detail. -/
theorem sar_c2_delete_lenient (st : VpcLinkState) (pid m : String)
    (ev : LFEvent) (o2 : Bool) (reads : Nat → PolReadOut)
    (dels : Nat → PolDelOut) (cev : CFEvent) (o2' : Bool)
    (hpres : st.present = true)
    (hurl : ev.hasResponseURL = true)
    (hD : ev.requestType = some "Delete")
    (hv2 : truthyOpt ev.resourceType = true)
    (hv3 : truthyOpt ev.logicalResourceId = true)
    (hcurl : cev.hasResponseURL = true)
    (hcD : cev.requestType = some "Delete")
    (hcp : cev.hasResourceProps = true)
    (hcres : cev.resourceType.isSome = true) :
    vpcLinkDelete st pid (.clientErr m) =
      (pid, [("Status", "DeleteFailed"), ("Error", m)]) ∧
    runLFHandler ev false (.ok pid (vpcLinkDelete st pid (.clientErr m)).2)
      false true o2 =
      [(⟨"SUCCESS", some "DeleteFailed", some m⟩, true)] ∧
    runCFHandler cev
      (.ok pid (cfDeleteResponsePolicy pid reads dels)) true o2' =
      [(⟨"SUCCESS", some "Deleted", none⟩, true)] := by
  have hvd : vpcLinkDelete st pid (.clientErr m) =
      (pid, [("Status", "DeleteFailed"), ("Error", m)]) := by
    unfold vpcLinkDelete
    rw [hpres]
    simp
  refine ⟨hvd, ?_, ?_⟩
  · rw [hvd, runLFHandler.eq_def]
    simp [hD, hv2, hv3, hurl,
      (by decide : truthyOpt (some "Delete") = true), sendCfn,
      deliveredStatuses, mkBody, lookupS]
  · rw [runCFHandler]
    simp [hcD, hcp, Option.isSome_iff_ne_none.mp hcres, hcurl, cfSend,
      cfDeleteResponsePolicy, mkBody, lookupS]

/-- Witness for the corrected C2 at concrete inputs. -/
theorem sar_c2_witness :
    runLFHandler ⟨true, some "Delete", some "VpcLink", some "L"⟩ false
      (.ok "vpc-1" (vpcLinkDelete ⟨true, "n", "AVAILABLE"⟩ "vpc-1"
        (.clientErr "AccessDenied")).2) false true true =
      [(⟨"SUCCESS", some "DeleteFailed", some "AccessDenied"⟩, true)] :=
  (sar_c2_delete_lenient ⟨true, "n", "AVAILABLE"⟩ "vpc-1" "AccessDenied"
    ⟨true, some "Delete", some "VpcLink", some "L"⟩ true polReadsFound
    polAllFatal c2ev true rfl rfl rfl rfl rfl rfl rfl rfl rfl).2.1

/-! ## C6: update idempotence against a converged resource -/

/-- C6 counterexample: `WAFResource.update` calls `update_web_acl` through
`_update_webacl_rules` unconditionally, so a second update with identical
properties against a converged WebACL still performs one remote write —
the claim that no remote write happens on the second invocation is
false. -/
theorem sar_c6_counterexample :
    wafUpdateWrites true [] = 1 ∧ (1 : Nat) ≠ 0 := by
  refine ⟨rfl, by decide⟩

/-- C6 as corrected: `VpcLinkResource.update` against an existing,
available VPC link whose name already matches the requested properties
performs no remote write, returns success, leaves the remote state
unchanged (so a second identical invocation behaves identically); but
`WAFResource.update` performs at least one remote write (`update_web_acl`)
on every invocation, even against a converged resource. -/
theorem sar_c6_update_idempotence (st : VpcLinkState) (nm : Option String)
    (h1 : st.present = true) (h2 : st.status = "AVAILABLE")
    (h3 : nm = none ∨ nm = some st.name) :
    (vpcLinkUpdate st nm).writes = 0 ∧
    (vpcLinkUpdate st nm).success = true ∧
    (vpcLinkUpdate st nm).newState = st ∧
    vpcLinkUpdate (vpcLinkUpdate st nm).newState nm = vpcLinkUpdate st nm ∧
    (∀ cidrs, 1 ≤ wafUpdateWrites true cidrs) := by
  obtain ⟨pres, name, status⟩ := st
  simp only at h1 h2
  subst h1
  subst h2
  have hnm : nm.getD name = name := by
    rcases h3 with rfl | rfl <;> simp
  refine ⟨?_, ?_, ?_, ?_, ?_⟩
  · simp [vpcLinkUpdate, hnm]
  · simp [vpcLinkUpdate, hnm]
  · simp [vpcLinkUpdate, hnm]
  · simp [vpcLinkUpdate, hnm]
  · intro cidrs
    unfold wafUpdateWrites
    simp

/-- Witness for the corrected C6 at a concrete converged VPC link. -/
theorem sar_c6_witness :
    (vpcLinkUpdate ⟨true, "link", "AVAILABLE"⟩ none).writes = 0 ∧
    (vpcLinkUpdate ⟨true, "link", "AVAILABLE"⟩ none).success = true :=
  ⟨(sar_c6_update_idempotence ⟨true, "link", "AVAILABLE"⟩ none rfl rfl
      (Or.inl rfl)).1,
   (sar_c6_update_idempotence ⟨true, "link", "AVAILABLE"⟩ none rfl rfl
      (Or.inl rfl)).2.1⟩

/-! ## C10: falsy property values count as missing -/

/-- C10: `validate_resource_properties` treats a required field as missing
not only when it is absent but also whenever its value is falsy (empty
string, empty list, 0, or False), raising a `ValueError` that names it;
consequently a Create of an AutoScaling resource whose `MinSize` is 0 is
rejected with `MinSize` among the missing required properties. -/
theorem sar_c10_falsy_required (props : List (String × PVal))
    (required : List String) (f : String) (v : PVal)
    (hmem : f ∈ required) (hlook : lookupP props f = some v)
    (hfal : pTruthy v = false) :
    f ∈ missingFields props required ∧
    (∃ msg, validateResourceProperties props required = .error msg) ∧
    (lookupP props "MinSize" = some (.int 0) →
      "MinSize" ∈ missingFields props asgRequiredFields ∧
      ∃ msg2, validateResourceProperties props asgRequiredFields = .error msg2) := by
  have hpart1 : f ∈ missingFields props required := by
    apply List.mem_filter.mpr
    refine ⟨hmem, ?_⟩
    rw [hlook]
    simp [hfal]
  refine ⟨hpart1, ?_, ?_⟩
  · have hne : missingFields props required ≠ [] :=
      List.ne_nil_of_mem hpart1
    unfold validateResourceProperties
    rw [if_neg hne]
    exact ⟨_, rfl⟩
  · intro hmin
    have hm : "MinSize" ∈ missingFields props asgRequiredFields := by
      apply List.mem_filter.mpr
      refine ⟨by decide, ?_⟩
      rw [hmin]
      simp [pTruthy]
    refine ⟨hm, ?_⟩
    have hne : missingFields props asgRequiredFields ≠ [] :=
      List.ne_nil_of_mem hm
    unfold validateResourceProperties
    rw [if_neg hne]
    exact ⟨_, rfl⟩

/-- Concrete AutoScaling create properties with `MinSize = 0` and all
other required fields truthy. -/
def asgProps0 : List (String × PVal) :=
  [("AutoScalingGroupName", .str "asg"), ("LaunchTemplateName", .str "lt"),
   ("SubnetIds", .list ["subnet-1"]), ("MinSize", .int 0),
   ("MaxSize", .int 3), ("DesiredCapacity", .int 1)]

/-- Witness for C10: `MinSize = 0` is rejected as missing. -/
theorem sar_c10_witness :
    "MinSize" ∈ missingFields asgProps0 asgRequiredFields ∧
    ∃ msg, validateResourceProperties asgProps0 asgRequiredFields = .error msg :=
  ⟨(sar_c10_falsy_required asgProps0 asgRequiredFields "MinSize" (.int 0)
      (by decide) rfl rfl).1,
   (sar_c10_falsy_required asgProps0 asgRequiredFields "MinSize" (.int 0)
      (by decide) rfl rfl).2.1⟩
